import Mathlib

/-!
# UDP digest client (`udpclient.cpp`): failover loop and response handling

A shallow embedding of `handle_response` and `main` of `udpclient.cpp`.

* Bytes are `Fin 256`; a datagram is a `List Byte`.
* The operating system is an explicit world: every resolved address carries the
  outcome of each system call the program makes on it (`socket`, `setsockopt`,
  `connect`, and per attempt `send` and `recv`).
* `errno` is threaded explicitly: a failing system call stores its error number;
  a successful call, and the output calls (`std::cerr <<`, `std::perror`), leave
  the previous value in place.
* Every run yields its exit status and the ordered trace of the calls it made
  and of what it wrote to standard output / standard error.
* `SHA256` is the OpenSSL function called by the program, modelled by the
  FIPS 180-4 algorithm on 32-bit words held in `Nat`.
-/

namespace UdpClient

set_option maxRecDepth 100000

/-- One octet. -/
abbrev Byte := Fin 256

/-- Truncation of a natural number to one octet. -/
def toByte (x : Nat) : Byte := ⟨x % 256, Nat.mod_lt x (by decide)⟩

/-! ## SHA-256 (library function `SHA256` of `<openssl/sha.h>`) -/

/-- Digest size of SHA-256 in bytes (`SHA256_DIGEST_LENGTH`). -/
def SHA256_DIGEST_LENGTH : Nat := 32

/-- Word size mask: arithmetic is modulo `2^32`. -/
def w32 (x : Nat) : Nat := x % 4294967296

/-- Rotate a 32-bit word right by `n` bits. -/
def rotr (x n : Nat) : Nat := w32 ((x >>> n) ||| (x <<< (32 - n)))

def bigSigma0 (x : Nat) : Nat := rotr x 2 ^^^ rotr x 13 ^^^ rotr x 22

def bigSigma1 (x : Nat) : Nat := rotr x 6 ^^^ rotr x 11 ^^^ rotr x 25

def smallSigma0 (x : Nat) : Nat := rotr x 7 ^^^ rotr x 18 ^^^ (x >>> 3)

def smallSigma1 (x : Nat) : Nat := rotr x 17 ^^^ rotr x 19 ^^^ (x >>> 10)

def ch (x y z : Nat) : Nat := (x &&& y) ^^^ ((x ^^^ 4294967295) &&& z)

def maj (x y z : Nat) : Nat := (x &&& y) ^^^ (x &&& z) ^^^ (y &&& z)

/-- Round constants `K[0..63]` of FIPS 180-4, in decimal. -/
def sha256K : List Nat :=
  [1116352408, 1899447441, 3049323471, 3921009573, 961987163, 1508970993,
   2453635748, 2870763221, 3624381080, 310598401, 607225278, 1426881987,
   1925078388, 2162078206, 2614888103, 3248222580, 3835390401, 4022224774,
   264347078, 604807628, 770255983, 1249150122, 1555081692, 1996064986,
   2554220882, 2821834349, 2952996808, 3210313671, 3336571891, 3584528711,
   113926993, 338241895, 666307205, 773529912, 1294757372, 1396182291,
   1695183700, 1986661051, 2177026350, 2456956037, 2730485921, 2820302411,
   3259730800, 3345764771, 3516065817, 3600352804, 4094571909, 275423344,
   430227734, 506948616, 659060556, 883997877, 958139571, 1322822218,
   1537002063, 1747873779, 1955562222, 2024104815, 2227730452, 2361852424,
   2428436474, 2756734187, 3204031479, 3329325298]

/-- The eight working variables `a .. h` (also the chaining value). -/
structure Hash where
  a : Nat
  b : Nat
  c : Nat
  d : Nat
  e : Nat
  f : Nat
  g : Nat
  h : Nat
deriving DecidableEq, Repr

/-- Initial hash value. -/
def sha256Init : Hash :=
  ⟨1779033703, 3144134277, 1013904242, 2773480762, 1359893119, 2600822924, 528734635, 1541459225⟩

/-- One round with constant `k` and schedule word `w`. -/
def sha256Round (s : Hash) (k w : Nat) : Hash :=
  let t1 := w32 (s.h + bigSigma1 s.e + ch s.e s.f s.g + k + w)
  let t2 := w32 (bigSigma0 s.a + maj s.a s.b s.c)
  ⟨w32 (t1 + t2), s.a, s.b, s.c, w32 (s.d + t1), s.e, s.f, s.g⟩

/-- The 64 rounds: `win` is the sliding window of the last 16 schedule words,
so its head is the word of the current round. -/
def sha256Rounds : List Nat → List Nat → Hash → Hash
  | [], _, s => s
  | k :: ks, win, s =>
    let w := win.getD 0 0
    let next := w32 (smallSigma1 (win.getD 14 0) + win.getD 9 0
                      + smallSigma0 (win.getD 1 0) + w)
    sha256Rounds ks (win.drop 1 ++ [next]) (sha256Round s k w)

/-- Big-endian 32-bit words of a block of bytes. -/
def beWords : List Byte → List Nat
  | b0 :: b1 :: b2 :: b3 :: rest =>
    (b0.val * 16777216 + b1.val * 65536 + b2.val * 256 + b3.val) :: beWords rest
  | _ => []

/-- Compression of one 64-byte block into the chaining value. -/
def sha256Compress (s : Hash) (block : List Byte) : Hash :=
  let r := sha256Rounds sha256K (beWords block) s
  ⟨w32 (s.a + r.a), w32 (s.b + r.b), w32 (s.c + r.c), w32 (s.d + r.d),
   w32 (s.e + r.e), w32 (s.f + r.f), w32 (s.g + r.g), w32 (s.h + r.h)⟩

/-- Absorb the padded message block by block (`n` bounds the number of blocks). -/
def sha256Blocks : Nat → List Byte → Hash → Hash
  | 0, _, s => s
  | n + 1, msg, s =>
    match msg with
    | [] => s
    | _ :: _ => sha256Blocks n (msg.drop 64) (sha256Compress s (msg.take 64))

/-- Big-endian bytes of a 32-bit word. -/
def beBytes32 (x : Nat) : List Byte :=
  [toByte (x >>> 24), toByte (x >>> 16), toByte (x >>> 8), toByte x]

/-- Message padding: a `1` bit, zeros up to 56 mod 64, then the bit length on 64 bits. -/
def sha256Pad (msg : List Byte) : List Byte :=
  let bits := 8 * msg.length
  msg ++ [toByte 128] ++ List.replicate ((119 - msg.length % 64) % 64) (toByte 0)
    ++ beBytes32 (bits >>> 32) ++ beBytes32 bits

/-- The 32-byte SHA-256 digest of a message. -/
def SHA256 (msg : List Byte) : List Byte :=
  let p := sha256Pad msg
  let r := sha256Blocks p.length p sha256Init
  beBytes32 r.a ++ beBytes32 r.b ++ beBytes32 r.c ++ beBytes32 r.d
    ++ beBytes32 r.e ++ beBytes32 r.f ++ beBytes32 r.g ++ beBytes32 r.h

/-- Bytes of an ASCII string. -/
def ascii (s : String) : List Byte := s.toList.map (fun c => toByte c.toNat)

/-! ## The world seen by the program -/

/-- Value of `EAGAIN` on the platform (Linux). -/
def EAGAIN : Nat := 11

/-- Value of `EWOULDBLOCK`; on Linux it is the same number as `EAGAIN`. -/
def EWOULDBLOCK : Nat := 11

/-- Outcome of a system call that returns `0` / a count on success and `-1` with
`errno` set on failure. -/
inductive SysResult where
  | ok
  | fail (errno : Nat)
deriving DecidableEq, Repr

/-- Outcome of `::socket`: a descriptor, or `-1` with `errno` set. -/
inductive SocketResult where
  | fd (sockfd : Nat)
  | fail (errno : Nat)
deriving DecidableEq, Repr

/-- Outcome of `::recv`: `-1` with `errno` set (a timeout is `EAGAIN`/`EWOULDBLOCK`),
or the datagram that was waiting, of any length (a UDP datagram may be empty and
may be longer than the caller's buffer). -/
inductive RecvResult where
  | fail (errno : Nat)
  | datagram (d : List Byte)
deriving DecidableEq, Repr

/-- One node of the list returned by `getaddrinfo`, together with what the
world answers to each call made on that address. `send a` and `recv a` are the
outcomes of the calls made during attempt number `a`. -/
structure AddrInfo where
  socket : SocketResult
  setsockopt : SysResult
  connect : SysResult
  send : Nat → SysResult
  recv : Nat → RecvResult

/-- Observable steps of a run, in program order. `send` carries the position of
the address in the resolver's list. -/
inductive Event where
  | socket (rp : Nat) (r : SocketResult)
  | setsockopt (sockfd : Nat) (r : SysResult)
  | connect (sockfd : Nat) (r : SysResult)
  | send (rp sockfd : Nat) (data : List Byte) (r : SysResult)
  | recv (sockfd : Nat) (r : RecvResult)
  | sha256 (msg : List Byte)
  | memcmp (equal : Bool)
  | close (sockfd : Nat)
  | freeaddrinfo
  | cout (text : String)
  | coutWrite (bytes : List Byte)
  | cerr (text : String)
  | cerrBytes (bytes : List Byte)
  | perror (tag : String) (errno : Nat)
  | gai_strerror (ret : Int)
deriving DecidableEq, Repr

/-! ## `handle_response` -/

/-- Size of the receive buffer. -/
def BUF_SIZE : Nat := 4096

/-- Lower-case hexadecimal digit. -/
def hexDigit (n : Nat) : Char :=
  if n < 10 then Char.ofNat (48 + n) else Char.ofNat (87 + n)

/-- Two hexadecimal digits of a byte (`std::hex`, `setw(2)`, `setfill('0')`). -/
def hex2 (b : Byte) : String := String.mk [hexDigit (b.val / 16), hexDigit (b.val % 16)]

/-- Result of `handle_response`: the returned flag, `errno` afterwards, and the
steps performed. -/
structure Handled where
  ret : Bool
  errno : Nat
  trace : List Event
deriving DecidableEq, Repr

/-- Embedding of `handle_response(sockfd)`. `errno` is the value of the global
before the call, `r` is the world's answer to the `::recv` it makes. `recv`
copies at most `BUF_SIZE` bytes of the datagram into the buffer and returns the
number of bytes copied. -/
def handle_response (sockfd : Nat) (errno : Nat) (r : RecvResult) : Handled :=
  match r with
  | .fail e =>
    -- n < 0
    if e = EAGAIN ∨ e = EWOULDBLOCK then
      ⟨false, e, [.recv sockfd r]⟩
    else
      ⟨false, e, [.recv sockfd r, .perror "recv" e]⟩
  | .datagram d =>
    let buffer := d.take BUF_SIZE
    let n := buffer.length
    if n < 32 then
      ⟨false, errno,
        [.recv sockfd r,
         .cerr ("Received packet too short (" ++ toString n ++ " bytes, need >= 32)\n")]⟩
    else
      let recv_hash := buffer.take 32
      let message_part := buffer.drop 32
      let local_hash := SHA256 message_part
      let hash_ok := decide (recv_hash = local_hash.take SHA256_DIGEST_LENGTH)
      ⟨true, errno,
        [.recv sockfd r, .sha256 message_part, .memcmp hash_ok]
        ++ (if hash_ok then
              [.cout ("Hash OK (read " ++ toString n
                        ++ " bytes). Full message (including padding):\n"),
               .coutWrite message_part,
               .cout "\n"]
            else
              [.cout ("Hash mismatch (read " ++ toString n
                        ++ " bytes). Not printing quote.\n")])
        ++ [.cout "Hash:", .cout (String.join (recv_hash.map hex2)), .cout "\n"]⟩

/-! ## `main` -/

/-- Attempts allowed on one address. -/
def max_retries : Nat := 3

/-- Length as computed by `std::strlen`: number of bytes before the first NUL. -/
def strlen (s : List Byte) : Nat := (s.takeWhile (fun b => b ≠ 0)).length

/-- State carried around the loops, with the steps performed so far by the loop. -/
structure LoopResult where
  overall_success : Bool
  errno : Nat
  trace : List Event
deriving DecidableEq, Repr

/-- The retry loop `for (attempt = 1; attempt <= max_retries && !overall_success; ++attempt)`
on the connected socket `sockfd` of address number `rp`. The first argument is
the list of values `attempt` still has to take. -/
def attemptLoop (email : List Byte) (rp sockfd : Nat) (w : AddrInfo) :
    List Nat → Bool → Nat → LoopResult
  | [], overall_success, errno => ⟨overall_success, errno, []⟩
  | attempt :: rest, overall_success, errno =>
    if overall_success then ⟨overall_success, errno, []⟩
    else
      let data := email.take (strlen email)
      match w.send attempt with
      | .fail e =>
        -- sent < 0: break
        ⟨overall_success, e, [.send rp sockfd data (.fail e), .perror "send" e]⟩
      | .ok =>
        let h := handle_response sockfd errno (w.recv attempt)
        if !h.ret then
          if h.errno = EAGAIN ∨ h.errno = EWOULDBLOCK then
            -- continue
            let r := attemptLoop email rp sockfd w rest overall_success h.errno
            ⟨r.overall_success, r.errno,
              [.send rp sockfd data .ok] ++ h.trace
              ++ [.cerr ("Timeout (attempt " ++ toString attempt ++ " of "
                          ++ toString max_retries ++ ") on one address\n")]
              ++ r.trace⟩
          else
            -- break
            ⟨overall_success, h.errno, [.send rp sockfd data .ok] ++ h.trace⟩
        else
          let r := attemptLoop email rp sockfd w rest true h.errno
          ⟨r.overall_success, r.errno, [.send rp sockfd data .ok] ++ h.trace ++ r.trace⟩

/-- The address loop `for (rp = res; rp != nullptr && !overall_success; rp = rp->ai_next)`;
`rp` is the position of the head of the remaining list in the resolver's list. -/
def addrLoop (email : List Byte) : Nat → List AddrInfo → Bool → Nat → LoopResult
  | _, [], overall_success, errno => ⟨overall_success, errno, []⟩
  | rp, w :: next, overall_success, errno =>
    if overall_success then ⟨overall_success, errno, []⟩
    else
      match w.socket with
      | .fail e =>
        -- sockfd == -1: continue
        let r := addrLoop email (rp + 1) next overall_success e
        ⟨r.overall_success, r.errno, [.socket rp (.fail e)] ++ r.trace⟩
      | .fd sockfd =>
        match w.setsockopt with
        | .fail e =>
          let r := addrLoop email (rp + 1) next overall_success e
          ⟨r.overall_success, r.errno,
            [.socket rp (.fd sockfd), .setsockopt sockfd (.fail e),
             .perror "setsockopt(SO_RCVTIMEO)" e, .close sockfd] ++ r.trace⟩
        | .ok =>
          match w.connect with
          | .fail e =>
            let r := addrLoop email (rp + 1) next overall_success e
            ⟨r.overall_success, r.errno,
              [.socket rp (.fd sockfd), .setsockopt sockfd .ok, .connect sockfd (.fail e),
               .close sockfd] ++ r.trace⟩
          | .ok =>
            let a := attemptLoop email rp sockfd w (List.range' 1 max_retries)
                       overall_success errno
            let r := addrLoop email (rp + 1) next a.overall_success a.errno
            ⟨r.overall_success, r.errno,
              [.socket rp (.fd sockfd), .setsockopt sockfd .ok, .connect sockfd .ok]
              ++ a.trace ++ [.close sockfd] ++ r.trace⟩

/-- A finished run: exit status and the steps performed. -/
structure Run where
  status : Nat
  trace : List Event
deriving DecidableEq, Repr

/-- Embedding of `main`. `argv` are the command-line strings (`argc` is their
number), `ret` and `res` are the return value and the address list of
`getaddrinfo`, `errno` is the value of the global when the address loop starts. -/
def main (argv : List (List Byte)) (ret : Int) (res : List AddrInfo) (errno : Nat) : Run :=
  if argv.length ≠ 4 then
    ⟨1, [.cerr "Usage: ", .cerrBytes (argv.getD 0 []), .cerr " <host> <port> <email>\n"]⟩
  else
    let email := argv.getD 3 []
    if ret ≠ 0 then
      ⟨1, [.cerr "getaddrinfo: ", .gai_strerror ret, .cerr "\n"]⟩
    else
      let r := addrLoop email 0 res false errno
      if !r.overall_success then
        ⟨1, r.trace ++ [.freeaddrinfo,
                        .cerr "No valid response after trying all addresses and retries.\n"]⟩
      else
        ⟨0, r.trace ++ [.freeaddrinfo]⟩

/-! ## Observations on traces -/

/-- The bytes of a datagram that reach the receive buffer. -/
def received (d : List Byte) : List Byte := d.take BUF_SIZE

/-- The digest check of the specification on received bytes: at least 32 bytes,
the first 32 of which are the SHA-256 digest of the rest. -/
def Verified (b : List Byte) : Prop := 32 ≤ b.length ∧ b.take 32 = SHA256 (b.drop 32)

/-- At least 32 bytes whose first 32 differ from the SHA-256 digest of the rest. -/
def Mismatched (b : List Byte) : Prop := 32 ≤ b.length ∧ b.take 32 ≠ SHA256 (b.drop 32)

instance (b : List Byte) : Decidable (Verified b) := by unfold Verified; infer_instance

instance (b : List Byte) : Decidable (Mismatched b) := by unfold Mismatched; infer_instance

/-- A `recv` that delivered at least 32 bytes into the buffer. -/
def isReply : Event → Bool
  | .recv _ (.datagram d) => decide (32 ≤ (received d).length)
  | _ => false

/-- A call of `::send`. -/
def isSend : Event → Bool
  | .send _ _ _ _ => true
  | _ => false

/-- A call of `::socket`. -/
def isSocket : Event → Bool
  | .socket _ _ => true
  | _ => false

/-- A digest computation or comparison. -/
def isDigestStep : Event → Bool
  | .sha256 _ => true
  | .memcmp _ => true
  | _ => false

/-- Something written to standard output. -/
def isStdout : Event → Bool
  | .cout _ => true
  | .coutWrite _ => true
  | _ => false

/-- A `::send` made on address number `rp`. -/
def isSendTo (rp : Nat) : Event → Bool
  | .send rp' _ _ _ => rp' == rp
  | _ => false

/-- Number of `::send` calls made on address number `rp`. -/
def sendsTo (rp : Nat) (t : List Event) : Nat := t.countP (isSendTo rp)

/-- The byte blocks passed to `std::cout.write`, in order. -/
def coutWrites (t : List Event) : List (List Byte) :=
  t.filterMap (fun e => match e with | .coutWrite b => some b | _ => none)

/-- Positions of the addresses on which `::socket` was called, in order. -/
def socketCalls (t : List Event) : List Nat :=
  t.filterMap (fun e => match e with | .socket rp _ => some rp | _ => none)

/-- Effect of one step on the socket handle currently open (`cur`): `socket`
may only create a handle while none is open, `close` may only release the handle
that is open; `none` reports a violation of that discipline. -/
def handleStep (cur : Option Nat) : Event → Option (Option Nat)
  | .socket _ (.fd s) => if cur = none then some (some s) else none
  | .close s => if cur = some s then some none else none
  | _ => some cur

/-- The handle left open by a trace started with `cur` open, or `none` if some
step opened a second handle or closed a handle that was not the open one. -/
def handleAfter : Option Nat → List Event → Option (Option Nat)
  | cur, [] => some cur
  | cur, e :: t => (handleStep cur e).bind (fun c => handleAfter c t)

/-- Number of handles created by successful `socket` calls. -/
def handlesOpened (t : List Event) : Nat :=
  t.countP (fun e => match e with | .socket _ (.fd _) => true | _ => false)

/-- Number of `close` calls. -/
def handlesClosed (t : List Event) : Nat :=
  t.countP (fun e => match e with | .close _ => true | _ => false)

/-! ## Vocabulary of the proofs -/

/-- What `handle_response` does after `recv` on a datagram of which at least 32
bytes reached the buffer. -/
def handling (d : List Byte) : List Event :=
  (handle_response 0 0 (.datagram d)).trace.drop 1

/-- A step that touches no socket: digest work and terminal output. -/
def isLocal : Event → Bool
  | .sha256 _ => true
  | .memcmp _ => true
  | .cout _ => true
  | .coutWrite _ => true
  | .cerr _ => true
  | .cerrBytes _ => true
  | .perror _ _ => true
  | .gai_strerror _ => true
  | .freeaddrinfo => true
  | _ => false

/-- The condition under which `main` treats a failed `handle_response` as a timeout. -/
def timeoutErrno (e : Nat) : Prop := e = EAGAIN ∨ e = EWOULDBLOCK

instance (e : Nat) : Decidable (timeoutErrno e) := by unfold timeoutErrno; infer_instance

/-- The diagnostic printed before retrying on the same address. -/
def timeoutMsg (attempt : Nat) : Event :=
  .cerr ("Timeout (attempt " ++ toString attempt ++ " of "
          ++ toString max_retries ++ ") on one address\n")

/-- The diagnostic printed by `handle_response` on a short datagram. -/
def shortMsg (d : List Byte) : Event :=
  .cerr ("Received packet too short (" ++ toString (received d).length
          ++ " bytes, need >= 32)\n")

/-- The request bytes handed to `::send`. -/
def request (email : List Byte) : List Byte := email.take (strlen email)

/-- A step on the socket `sockfd` that is neither a `send` nor the receipt of a
reply, or a step that touches no socket. -/
def isQuietStep (sockfd : Nat) : Event → Bool
  | .recv fd r => fd == sockfd && !isReply (.recv fd r)
  | e => isLocal e

/-- A step that belongs to the session of address `rp` on socket `sockfd`. -/
def isSessionStep (rp sockfd : Nat) : Event → Bool
  | .send rp' fd _ _ => rp' == rp && fd == sockfd
  | .recv fd _ => fd == sockfd
  | e => isLocal e

/-- How a loop ended: without any reply, or with exactly the steps `tail sockfd`
after handling the one reply it received, on socket `sockfd`. -/
def Outcome (r : LoopResult) (tail : Nat → List Event) : Prop :=
  (r.overall_success = false ∧ ∀ x ∈ r.trace, isReply x = false)
  ∨ (r.overall_success = true
      ∧ ∃ pre sockfd d,
          r.trace = pre ++ .recv sockfd (.datagram d) :: (handling d ++ tail sockfd)
          ∧ 32 ≤ (received d).length ∧ ∀ x ∈ pre, isReply x = false)

/-- A step made while setting up a socket. -/
def isSetupStep (sockfd : Nat) : Event → Bool
  | .setsockopt fd _ => fd == sockfd
  | .connect fd _ => fd == sockfd
  | e => isLocal e

/-- A step that neither creates nor releases a handle and is not a `socket` call. -/
def isHandleNeutral : Event → Bool
  | .socket _ _ => false
  | .close _ => false
  | _ => true

/-- The address opens: `socket`, `setsockopt` and `connect` all succeed. -/
def Opens (w : AddrInfo) (sockfd : Nat) : Prop :=
  w.socket = .fd sockfd ∧ w.setsockopt = .ok ∧ w.connect = .ok

/-- Attempt `a` on the address times out: the request is sent and `recv` fails
with `EAGAIN`. -/
def TimesOut (w : AddrInfo) (a : Nat) : Prop :=
  w.send a = .ok ∧ w.recv a = .fail EAGAIN

/-- The address opens and every one of its `max_retries` attempts times out. -/
def Silent (w : AddrInfo) : Prop :=
  (∃ sockfd, Opens w sockfd) ∧ ∀ a, 1 ≤ a → a ≤ max_retries → TimesOut w a

/-- The steps of one attempt that times out. -/
def timeoutSteps (email : List Byte) (rp sockfd a : Nat) : List Event :=
  [.send rp sockfd (request email) .ok, .recv sockfd (.fail EAGAIN), timeoutMsg a]

/-- The steps of consecutive attempts that all time out. -/
def timeoutRounds (email : List Byte) (rp sockfd : Nat) : List Nat → List Event
  | [] => []
  | a :: rest => timeoutSteps email rp sockfd a ++ timeoutRounds email rp sockfd rest

/-! ## Example worlds -/

/-- A payload one byte longer than what fits the buffer behind the digest. -/
def longPayload : List Byte := List.replicate 4065 0

/-- Command line `./udp_client charlie.nplab.bth.se 5000 user@example.com`. -/
def exampleArgv : List (List Byte) :=
  [ascii "./udp_client", ascii "charlie.nplab.bth.se", ascii "5000", ascii "user@example.com"]

/-- An address that opens and accepts every request but never answers. -/
def silentAddr : AddrInfo :=
  ⟨.fd 3, .ok, .ok, fun _ => .ok, fun _ => .fail EAGAIN⟩

/-- An address that answers `SHA256 "hello" ++ "hello"` on attempt `j` and is
silent on the other attempts. -/
def helloAddr (j : Nat) : AddrInfo :=
  ⟨.fd 3, .ok, .ok, fun _ => .ok,
   fun a => if a = j then .datagram (SHA256 (ascii "hello") ++ ascii "hello")
            else .fail EAGAIN⟩

/-- An address that answers at once with 32 zero bytes followed by "hello". -/
def zeroDigestAddr : AddrInfo :=
  ⟨.fd 3, .ok, .ok, fun _ => .ok,
   fun _ => .datagram (List.replicate 32 0 ++ ascii "hello")⟩

/-- An address that is silent on attempt 1, answers the five bytes "hello" on
attempt 2, and is silent afterwards. -/
def shortAfterTimeoutAddr : AddrInfo :=
  ⟨.fd 3, .ok, .ok, fun _ => .ok,
   fun a => if a = 2 then .datagram (ascii "hello") else .fail EAGAIN⟩

/-- A `recv` that delivered a datagram passing the digest check of the specification. -/
def isVerifiedReply : Event → Bool
  | .recv _ (.datagram d) => decide (Verified (received d))
  | _ => false

/-- The datagram of `zeroDigestAddr`. -/
def zeroDigestReply : List Byte := List.replicate 32 0 ++ ascii "hello"

/-- Steps of the run on `[zeroDigestAddr, silentAddr]` before its `recv`. -/
def zeroDigestPre : List Event :=
  [.socket 0 (.fd 3), .setsockopt 3 .ok, .connect 3 .ok,
   .send 0 3 (ascii "user@example.com") .ok]

/-- Steps of the run on `[zeroDigestAddr, silentAddr]` after its `recv`. -/
def zeroDigestPost : List Event :=
  [.sha256 (ascii "hello"), .memcmp false,
   .cout "Hash mismatch (read 37 bytes). Not printing quote.\n",
   .cout "Hash:",
   .cout "0000000000000000000000000000000000000000000000000000000000000000",
   .cout "\n", .close 3, .freeaddrinfo]

/-- The datagram `SHA256 "hello" ++ "hello"`. -/
def helloReply : List Byte := SHA256 (ascii "hello") ++ ascii "hello"

/-- Steps of the run on `[silentAddr, helloAddr 2, silentAddr]` before the reply. -/
def helloPre : List Event :=
  [.socket 0 (.fd 3), .setsockopt 3 .ok, .connect 3 .ok,
   .send 0 3 (ascii "user@example.com") .ok, .recv 3 (.fail EAGAIN),
   .cerr "Timeout (attempt 1 of 3) on one address\n",
   .send 0 3 (ascii "user@example.com") .ok, .recv 3 (.fail EAGAIN),
   .cerr "Timeout (attempt 2 of 3) on one address\n",
   .send 0 3 (ascii "user@example.com") .ok, .recv 3 (.fail EAGAIN),
   .cerr "Timeout (attempt 3 of 3) on one address\n",
   .close 3,
   .socket 1 (.fd 3), .setsockopt 3 .ok, .connect 3 .ok,
   .send 1 3 (ascii "user@example.com") .ok, .recv 3 (.fail EAGAIN),
   .cerr "Timeout (attempt 1 of 3) on one address\n",
   .send 1 3 (ascii "user@example.com") .ok]

/-- Steps of the run on `[silentAddr, helloAddr 2, silentAddr]` after the reply. -/
def helloPost : List Event :=
  [.sha256 (ascii "hello"), .memcmp true,
   .cout "Hash OK (read 37 bytes). Full message (including padding):\n",
   .coutWrite (ascii "hello"), .cout "\n",
   .cout "Hash:",
   .cout "2cf24dba5fb0a30e26e83b2ac5b9e29e1b161e5c1fa7425e73043362938b9824",
   .cout "\n", .close 3, .freeaddrinfo]

/-- An address that answers at once with `SHA256 longPayload ++ longPayload`,
a datagram of 4097 bytes. -/
def longAddr : AddrInfo :=
  ⟨.fd 3, .ok, .ok, fun _ => .ok, fun _ => .datagram (SHA256 longPayload ++ longPayload)⟩

/-! ## Facts about `SHA256` and `handle_response` -/

/-- The model of `SHA256` on the empty message (test vector of FIPS 180-4). -/
theorem SHA256_empty :
    (SHA256 []).map Fin.val =
      [227, 176, 196, 66, 152, 252, 28, 20, 154, 251, 244, 200, 153, 111, 185, 36,
       39, 174, 65, 228, 100, 155, 147, 76, 164, 149, 153, 27, 120, 82, 184, 85] := by
  decide

/-- The model of `SHA256` on "abc" (test vector of FIPS 180-4). -/
theorem SHA256_abc :
    (SHA256 (ascii "abc")).map Fin.val =
      [186, 120, 22, 191, 143, 1, 207, 234, 65, 65, 64, 222, 93, 174, 34, 35,
       176, 3, 97, 163, 150, 23, 122, 156, 180, 16, 255, 97, 242, 0, 21, 173] := by
  decide

/-- The model of `SHA256` on "hello". -/
theorem SHA256_hello :
    (SHA256 (ascii "hello")).map Fin.val =
      [44, 242, 77, 186, 95, 176, 163, 14, 38, 232, 59, 42, 197, 185, 226, 158,
       27, 22, 30, 92, 31, 167, 66, 94, 115, 4, 51, 98, 147, 139, 152, 36] := by
  decide

theorem SHA256_length (msg : List Byte) : (SHA256 msg).length = 32 := by
  simp [SHA256, beBytes32]

theorem received_length_le (d : List Byte) : (received d).length ≤ BUF_SIZE := by
  simp [received]

theorem received_of_le {d : List Byte} (h : d.length ≤ BUF_SIZE) : received d = d := by
  simp [received, List.take_of_length_le h]

theorem handle_response_reply (sockfd errno : Nat) (d : List Byte)
    (h : 32 ≤ (received d).length) :
    handle_response sockfd errno (.datagram d)
      = ⟨true, errno, .recv sockfd (.datagram d) :: handling d⟩ := by
  have h' : ¬ (List.take BUF_SIZE d).length < 32 := by
    simpa [received] using h
  simp only [handling, handle_response, if_neg h']
  simp

theorem handle_response_short (sockfd errno : Nat) (d : List Byte)
    (h : (received d).length < 32) :
    handle_response sockfd errno (.datagram d)
      = ⟨false, errno,
          [.recv sockfd (.datagram d),
           .cerr ("Received packet too short (" ++ toString (received d).length
                    ++ " bytes, need >= 32)\n")]⟩ := by
  have h' : (List.take BUF_SIZE d).length < 32 := by simpa [received] using h
  simp only [handle_response, if_pos h']
  simp [received]

theorem handling_eq (d : List Byte) (h : 32 ≤ (received d).length) :
    handling d =
      [.sha256 ((received d).drop 32),
       .memcmp (decide ((received d).take 32 = SHA256 ((received d).drop 32)))]
      ++ (if (received d).take 32 = SHA256 ((received d).drop 32) then
            [.cout ("Hash OK (read " ++ toString (received d).length
                      ++ " bytes). Full message (including padding):\n"),
             .coutWrite ((received d).drop 32), .cout "\n"]
          else
            [.cout ("Hash mismatch (read " ++ toString (received d).length
                      ++ " bytes). Not printing quote.\n")])
      ++ [.cout "Hash:", .cout (String.join (((received d).take 32).map hex2)), .cout "\n"] := by
  have h' : ¬ (List.take BUF_SIZE d).length < 32 := by
    simpa [received] using h
  have hl : List.take SHA256_DIGEST_LENGTH (SHA256 (List.drop 32 (List.take BUF_SIZE d)))
      = SHA256 (List.drop 32 (List.take BUF_SIZE d)) :=
    List.take_of_length_le (by simp [SHA256_length, SHA256_DIGEST_LENGTH])
  simp only [handling, handle_response, if_neg h', received, hl]
  split <;> simp_all

theorem handling_local (d : List Byte) : ∀ e ∈ handling d, isLocal e = true := by
  intro e he
  simp only [handling, handle_response] at he
  split at he
  · simp at he
    subst he
    rfl
  · split at he <;> simp at he <;> casesm* _ ∨ _ <;> subst_vars <;> rfl

theorem coutWrites_handling_length (d : List Byte) :
    ∀ m ∈ coutWrites (handling d), m.length ≤ BUF_SIZE - 32 := by
  intro m hm
  simp only [handling, handle_response] at hm
  split at hm
  · simp [coutWrites] at hm
  · split at hm
    · simp [coutWrites] at hm
      subst hm
      simp [BUF_SIZE]
    · simp [coutWrites] at hm

theorem coutWrites_handle_response_length (sockfd errno : Nat) (r : RecvResult) :
    ∀ m ∈ coutWrites (handle_response sockfd errno r).trace, m.length ≤ BUF_SIZE - 32 := by
  intro m hm
  cases r with
  | fail e =>
    simp only [handle_response] at hm
    split at hm <;> simp [coutWrites] at hm
  | datagram d =>
    by_cases h : 32 ≤ (received d).length
    · rw [handle_response_reply _ _ _ h] at hm
      exact coutWrites_handling_length d m (by simpa [coutWrites] using hm)
    · rw [handle_response_short _ _ _ (by omega)] at hm
      simp [coutWrites] at hm

/-- A datagram made of the digest of `P` followed by `P` passes the check as long
as it fits the buffer. -/
theorem verified_digest_append (P : List Byte) : Verified (SHA256 P ++ P) := by
  have hl := SHA256_length P
  refine ⟨by simp [hl], ?_⟩
  rw [List.take_left' hl, List.drop_left' hl]

theorem handling_verified (d : List Byte) (h : Verified (received d)) :
    handling d =
      [.sha256 ((received d).drop 32), .memcmp true,
       .cout ("Hash OK (read " ++ toString (received d).length
                ++ " bytes). Full message (including padding):\n"),
       .coutWrite ((received d).drop 32), .cout "\n",
       .cout "Hash:", .cout (String.join (((received d).take 32).map hex2)), .cout "\n"] := by
  rw [handling_eq d h.1]
  simp [h.2]

theorem handling_mismatched (d : List Byte) (h : Mismatched (received d)) :
    handling d =
      [.sha256 ((received d).drop 32), .memcmp false,
       .cout ("Hash mismatch (read " ++ toString (received d).length
                ++ " bytes). Not printing quote.\n"),
       .cout "Hash:", .cout (String.join (((received d).take 32).map hex2)), .cout "\n"] := by
  rw [handling_eq d h.1]
  simp [h.2]

/-! ## One pass of the retry loop -/

theorem attemptLoop_done (email : List Byte) (rp sockfd : Nat) (w : AddrInfo)
    (atts : List Nat) (errno : Nat) :
    attemptLoop email rp sockfd w atts true errno = ⟨true, errno, []⟩ := by
  cases atts <;> simp [attemptLoop]

theorem attemptLoop_nil (email : List Byte) (rp sockfd : Nat) (w : AddrInfo)
    (ok : Bool) (errno : Nat) :
    attemptLoop email rp sockfd w [] ok errno = ⟨ok, errno, []⟩ := by
  simp [attemptLoop]

/-- When `send` fails the retry loop is left. -/
theorem attemptLoop_send_fail (email : List Byte) (rp sockfd : Nat) (w : AddrInfo)
    (a : Nat) (rest : List Nat) (errno e : Nat) (hs : w.send a = .fail e) :
    attemptLoop email rp sockfd w (a :: rest) false errno
      = ⟨false, e, [.send rp sockfd (request email) (.fail e), .perror "send" e]⟩ := by
  simp [attemptLoop, hs, request]

/-- When `recv` fails with the timeout error number the same address is retried. -/
theorem attemptLoop_timeout (email : List Byte) (rp sockfd : Nat) (w : AddrInfo)
    (a : Nat) (rest : List Nat) (errno e : Nat) (hs : w.send a = .ok)
    (hr : w.recv a = .fail e) (he : timeoutErrno e) :
    attemptLoop email rp sockfd w (a :: rest) false errno
      = ⟨(attemptLoop email rp sockfd w rest false e).overall_success,
         (attemptLoop email rp sockfd w rest false e).errno,
         [.send rp sockfd (request email) .ok, .recv sockfd (.fail e), timeoutMsg a]
           ++ (attemptLoop email rp sockfd w rest false e).trace⟩ := by
  have he' : e = EAGAIN ∨ e = EWOULDBLOCK := he
  simp [attemptLoop, hs, hr, handle_response, he', request, timeoutMsg]

/-- When `recv` fails with another error number the retry loop is left. -/
theorem attemptLoop_recv_error (email : List Byte) (rp sockfd : Nat) (w : AddrInfo)
    (a : Nat) (rest : List Nat) (errno e : Nat) (hs : w.send a = .ok)
    (hr : w.recv a = .fail e) (he : ¬ timeoutErrno e) :
    attemptLoop email rp sockfd w (a :: rest) false errno
      = ⟨false, e,
         [.send rp sockfd (request email) .ok, .recv sockfd (.fail e), .perror "recv" e]⟩ := by
  have he' : ¬ (e = EAGAIN ∨ e = EWOULDBLOCK) := he
  simp [attemptLoop, hs, hr, handle_response, he', request]

/-- A short datagram while `errno` does not hold the timeout number: leave the
retry loop. -/
theorem attemptLoop_short (email : List Byte) (rp sockfd : Nat) (w : AddrInfo)
    (a : Nat) (rest : List Nat) (errno : Nat) (d : List Byte) (hs : w.send a = .ok)
    (hr : w.recv a = .datagram d) (hd : (received d).length < 32)
    (he : ¬ timeoutErrno errno) :
    attemptLoop email rp sockfd w (a :: rest) false errno
      = ⟨false, errno,
         [.send rp sockfd (request email) .ok, .recv sockfd (.datagram d), shortMsg d]⟩ := by
  have he' : ¬ (errno = EAGAIN ∨ errno = EWOULDBLOCK) := he
  simp [attemptLoop, hs, hr, handle_response_short _ _ _ hd, he', request, shortMsg]

/-- A short datagram while `errno` still holds the timeout number left by an
earlier call: the loop takes the timeout branch and retries on the same address. -/
theorem attemptLoop_short_stale (email : List Byte) (rp sockfd : Nat) (w : AddrInfo)
    (a : Nat) (rest : List Nat) (errno : Nat) (d : List Byte) (hs : w.send a = .ok)
    (hr : w.recv a = .datagram d) (hd : (received d).length < 32)
    (he : timeoutErrno errno) :
    attemptLoop email rp sockfd w (a :: rest) false errno
      = ⟨(attemptLoop email rp sockfd w rest false errno).overall_success,
         (attemptLoop email rp sockfd w rest false errno).errno,
         [.send rp sockfd (request email) .ok, .recv sockfd (.datagram d), shortMsg d,
          timeoutMsg a]
           ++ (attemptLoop email rp sockfd w rest false errno).trace⟩ := by
  have he' : errno = EAGAIN ∨ errno = EWOULDBLOCK := he
  simp [attemptLoop, hs, hr, handle_response_short _ _ _ hd, he', request, shortMsg,
    timeoutMsg]

/-- At least 32 bytes received: `handle_response` returns `true` whatever the
digest comparison gave, and the loop ends with `overall_success` set. -/
theorem attemptLoop_reply (email : List Byte) (rp sockfd : Nat) (w : AddrInfo)
    (a : Nat) (rest : List Nat) (errno : Nat) (d : List Byte) (hs : w.send a = .ok)
    (hr : w.recv a = .datagram d) (hd : 32 ≤ (received d).length) :
    attemptLoop email rp sockfd w (a :: rest) false errno
      = ⟨true, errno,
         .send rp sockfd (request email) .ok :: .recv sockfd (.datagram d) :: handling d⟩ := by
  simp [attemptLoop, hs, hr, handle_response_reply _ _ _ hd, attemptLoop_done, request]

theorem isQuietStep_of_local {sockfd : Nat} {x : Event} (h : isLocal x = true) :
    isQuietStep sockfd x = true := by
  cases x <;> simp_all [isQuietStep, isLocal]

theorem isQuietStep_session {rp sockfd : Nat} {x : Event} (h : isQuietStep sockfd x = true) :
    isSessionStep rp sockfd x = true := by
  cases x <;> simp_all [isQuietStep, isSessionStep, isLocal]

theorem isQuietStep_not_reply {sockfd : Nat} {x : Event} (h : isQuietStep sockfd x = true) :
    isReply x = false := by
  cases x with
  | recv fd r =>
    simp only [isQuietStep, Bool.and_eq_true, Bool.not_eq_true'] at h
    exact h.2
  | _ => simp_all [isQuietStep, isLocal, isReply]

theorem isQuietStep_not_send {sockfd : Nat} {x : Event} (h : isQuietStep sockfd x = true) :
    isSend x = false := by
  cases x <;> simp_all [isQuietStep, isLocal, isSend]

theorem isLocal_not_reply {x : Event} (h : isLocal x = true) : isReply x = false := by
  cases x <;> simp_all [isLocal, isReply]

theorem isLocal_not_send {x : Event} (h : isLocal x = true) : isSend x = false := by
  cases x <;> simp_all [isLocal, isSend]

theorem isLocal_not_socket {x : Event} (h : isLocal x = true) : isSocket x = false := by
  cases x <;> simp_all [isLocal, isSocket]

/-- The three ways one pass of the retry loop can go: leave the loop without a
reply, go round again without a reply, or stop on a reply. -/
theorem attemptLoop_cons_cases (email : List Byte) (rp sockfd : Nat) (w : AddrInfo)
    (a : Nat) (rest : List Nat) (errno : Nat) :
    (∃ e res t, attemptLoop email rp sockfd w (a :: rest) false errno
        = ⟨false, e, .send rp sockfd (request email) res :: t⟩
        ∧ ∀ x ∈ t, isQuietStep sockfd x = true)
    ∨ (∃ e t, attemptLoop email rp sockfd w (a :: rest) false errno
        = ⟨(attemptLoop email rp sockfd w rest false e).overall_success,
           (attemptLoop email rp sockfd w rest false e).errno,
           .send rp sockfd (request email) .ok :: t
             ++ (attemptLoop email rp sockfd w rest false e).trace⟩
        ∧ ∀ x ∈ t, isQuietStep sockfd x = true)
    ∨ (∃ d, 32 ≤ (received d).length
        ∧ attemptLoop email rp sockfd w (a :: rest) false errno
          = ⟨true, errno,
             .send rp sockfd (request email) .ok :: .recv sockfd (.datagram d)
               :: handling d⟩) := by
  cases hs : w.send a with
  | fail e =>
    left
    refine ⟨e, .fail e, [.perror "send" e], attemptLoop_send_fail _ _ _ _ _ _ _ _ hs, ?_⟩
    simp [isQuietStep, isLocal]
  | ok =>
    cases hr : w.recv a with
    | fail e =>
      by_cases he : timeoutErrno e
      · right; left
        refine ⟨e, [.recv sockfd (.fail e), timeoutMsg a], ?_, ?_⟩
        · rw [attemptLoop_timeout _ _ _ _ _ _ _ _ hs hr he]
        · simp [isQuietStep, isLocal, isReply, timeoutMsg]
      · left
        refine ⟨e, .ok, [.recv sockfd (.fail e), .perror "recv" e],
          attemptLoop_recv_error _ _ _ _ _ _ _ _ hs hr he, ?_⟩
        simp [isQuietStep, isLocal, isReply]
    | datagram d =>
      by_cases hd : 32 ≤ (received d).length
      · right; right
        exact ⟨d, hd, attemptLoop_reply _ _ _ _ _ _ _ _ hs hr hd⟩
      · have hd' : (received d).length < 32 := by omega
        by_cases he : timeoutErrno errno
        · right; left
          refine ⟨errno, [.recv sockfd (.datagram d), shortMsg d, timeoutMsg a], ?_, ?_⟩
          · rw [attemptLoop_short_stale _ _ _ _ _ _ _ _ hs hr hd' he]
          · simp [isQuietStep, isLocal, isReply, timeoutMsg, shortMsg, hd']
        · left
          refine ⟨errno, .ok, [.recv sockfd (.datagram d), shortMsg d],
            attemptLoop_short _ _ _ _ _ _ _ _ hs hr hd' he, ?_⟩
          simp [isQuietStep, isLocal, isReply, shortMsg, hd']

/-- Every step of the retry loop belongs to the session of its address and socket. -/
theorem attemptLoop_steps (email : List Byte) (rp sockfd : Nat) (w : AddrInfo)
    (atts : List Nat) (ok : Bool) (errno : Nat) :
    ∀ x ∈ (attemptLoop email rp sockfd w atts ok errno).trace,
      isSessionStep rp sockfd x = true := by
  cases ok with
  | true => simp [attemptLoop_done]
  | false =>
    induction atts generalizing errno with
    | nil => simp [attemptLoop_nil]
    | cons a rest ih =>
      rcases attemptLoop_cons_cases email rp sockfd w a rest errno with
        ⟨e, res, t, h, ht⟩ | ⟨e, t, h, ht⟩ | ⟨d, hd, h⟩
      · rw [h]
        intro x hx
        simp only [List.mem_cons] at hx
        rcases hx with rfl | hx
        · simp [isSessionStep]
        · exact isQuietStep_session (ht x hx)
      · rw [h]
        intro x hx
        simp only [List.mem_cons, List.cons_append, List.mem_append] at hx
        rcases hx with rfl | hx | hx
        · simp [isSessionStep]
        · exact isQuietStep_session (ht x hx)
        · exact ih e x hx
      · rw [h]
        intro x hx
        simp only [List.mem_cons] at hx
        rcases hx with rfl | rfl | hx
        · simp [isSessionStep]
        · simp [isSessionStep]
        · exact isQuietStep_session (isQuietStep_of_local (handling_local d x hx))

theorem countP_isSend_quiet {sockfd : Nat} {t : List Event}
    (ht : ∀ x ∈ t, isQuietStep sockfd x = true) : t.countP isSend = 0 := by
  rw [List.countP_eq_zero]
  intro x hx
  simp [isQuietStep_not_send (ht x hx)]

theorem countP_isSend_handling (d : List Byte) : (handling d).countP isSend = 0 := by
  rw [List.countP_eq_zero]
  intro x hx
  simp [isLocal_not_send (handling_local d x hx)]

/-- The retry loop calls `send` at most once per remaining attempt. -/
theorem attemptLoop_sends_le (email : List Byte) (rp sockfd : Nat) (w : AddrInfo)
    (atts : List Nat) (ok : Bool) (errno : Nat) :
    (attemptLoop email rp sockfd w atts ok errno).trace.countP isSend ≤ atts.length := by
  cases ok with
  | true => simp [attemptLoop_done]
  | false =>
    induction atts generalizing errno with
    | nil => simp [attemptLoop_nil]
    | cons a rest ih =>
      rcases attemptLoop_cons_cases email rp sockfd w a rest errno with
        ⟨e, res, t, h, ht⟩ | ⟨e, t, h, ht⟩ | ⟨d, hd, h⟩
      · rw [h]
        simp [List.countP_cons, isSend, countP_isSend_quiet ht]
      · rw [h]
        have := ih e
        simp only [List.cons_append, List.countP_cons, List.countP_append,
          countP_isSend_quiet ht, isSend, List.length_cons]
        simp
        omega
      · rw [h]
        simp [List.countP_cons, isSend, countP_isSend_handling, isReply]

/-- The retry loop ends without a reply, or right after handling its only reply. -/
theorem attemptLoop_outcome (email : List Byte) (rp sockfd : Nat) (w : AddrInfo)
    (atts : List Nat) (errno : Nat) :
    Outcome (attemptLoop email rp sockfd w atts false errno) (fun _ => []) := by
  induction atts generalizing errno with
  | nil => left; simp [attemptLoop_nil]
  | cons a rest ih =>
    rcases attemptLoop_cons_cases email rp sockfd w a rest errno with
      ⟨e, res, t, h, ht⟩ | ⟨e, t, h, ht⟩ | ⟨d, hd, h⟩
    · left
      rw [h]
      refine ⟨rfl, ?_⟩
      intro x hx
      simp only [List.mem_cons] at hx
      rcases hx with rfl | hx
      · rfl
      · exact isQuietStep_not_reply (ht x hx)
    · rw [h]
      rcases ih e with ⟨hok, hno⟩ | ⟨hok, pre, fd, d, htr, hd, hpre⟩
      · left
        refine ⟨hok, ?_⟩
        intro x hx
        simp only [List.mem_cons, List.cons_append, List.mem_append] at hx
        rcases hx with rfl | hx | hx
        · rfl
        · exact isQuietStep_not_reply (ht x hx)
        · exact hno x hx
      · right
        refine ⟨hok, .send rp sockfd (request email) .ok :: t ++ pre, fd, d, ?_, hd, ?_⟩
        · simp [htr]
        · intro x hx
          simp only [List.mem_cons, List.cons_append, List.mem_append] at hx
          rcases hx with rfl | hx | hx
          · rfl
          · exact isQuietStep_not_reply (ht x hx)
          · exact hpre x hx
    · right
      rw [h]
      refine ⟨rfl, [.send rp sockfd (request email) .ok], sockfd, d, by simp, hd, ?_⟩
      intro x hx
      simp only [List.mem_singleton] at hx
      subst hx
      rfl

/-! ## One pass of the address loop -/

theorem addrLoop_done (email : List Byte) (rp : Nat) (res : List AddrInfo) (errno : Nat) :
    addrLoop email rp res true errno = ⟨true, errno, []⟩ := by
  cases res <;> simp [addrLoop]

theorem addrLoop_nil (email : List Byte) (rp : Nat) (ok : Bool) (errno : Nat) :
    addrLoop email rp [] ok errno = ⟨ok, errno, []⟩ := by
  simp [addrLoop]

/-- The address loop on `w :: next` is the body on `w` followed by the loop on
`next`, started from the flag and `errno` the body left. -/
theorem addrLoop_cons (email : List Byte) (rp : Nat) (w : AddrInfo) (next : List AddrInfo)
    (errno : Nat) :
    addrLoop email rp (w :: next) false errno
      = ⟨(addrLoop email (rp + 1) next (addrLoop email rp [w] false errno).overall_success
            (addrLoop email rp [w] false errno).errno).overall_success,
         (addrLoop email (rp + 1) next (addrLoop email rp [w] false errno).overall_success
            (addrLoop email rp [w] false errno).errno).errno,
         (addrLoop email rp [w] false errno).trace
           ++ (addrLoop email (rp + 1) next (addrLoop email rp [w] false errno).overall_success
                (addrLoop email rp [w] false errno).errno).trace⟩ := by
  simp only [addrLoop]
  cases w.socket with
  | fail e => simp
  | fd sockfd =>
    cases w.setsockopt with
    | fail e => simp
    | ok =>
      cases w.connect with
      | fail e => simp
      | ok => simp

/-- The three ways the body of the address loop can go on one address: `socket`
fails; the socket is created but `setsockopt` or `connect` fails and it is
closed; or the retry loop runs on the connected socket, which is then closed. -/
theorem addrLoop_single_cases (email : List Byte) (rp : Nat) (w : AddrInfo) (errno : Nat) :
    (∃ e, w.socket = .fail e
        ∧ addrLoop email rp [w] false errno = ⟨false, e, [.socket rp (.fail e)]⟩)
    ∨ (∃ sockfd e t, w.socket = .fd sockfd
        ∧ (w.setsockopt = .fail e ∨ (w.setsockopt = .ok ∧ w.connect = .fail e))
        ∧ addrLoop email rp [w] false errno
            = ⟨false, e, .socket rp (.fd sockfd) :: t ++ [.close sockfd]⟩
        ∧ ∀ x ∈ t, isSetupStep sockfd x = true)
    ∨ (∃ sockfd, w.socket = .fd sockfd ∧ w.setsockopt = .ok ∧ w.connect = .ok
        ∧ addrLoop email rp [w] false errno
            = ⟨(attemptLoop email rp sockfd w (List.range' 1 max_retries) false
                  errno).overall_success,
               (attemptLoop email rp sockfd w (List.range' 1 max_retries) false errno).errno,
               .socket rp (.fd sockfd) :: .setsockopt sockfd .ok :: .connect sockfd .ok
                 :: (attemptLoop email rp sockfd w (List.range' 1 max_retries) false
                       errno).trace
                 ++ [.close sockfd]⟩) := by
  cases hsock : w.socket with
  | fail e =>
    left
    exact ⟨e, rfl, by simp [addrLoop, hsock]⟩
  | fd sockfd =>
    cases hopt : w.setsockopt with
    | fail e =>
      right; left
      refine ⟨sockfd, e, [.setsockopt sockfd (.fail e), .perror "setsockopt(SO_RCVTIMEO)" e],
        rfl, Or.inl rfl, by simp [addrLoop, hsock, hopt], ?_⟩
      simp [isSetupStep, isLocal]
    | ok =>
      cases hconn : w.connect with
      | fail e =>
        right; left
        refine ⟨sockfd, e, [.setsockopt sockfd .ok, .connect sockfd (.fail e)],
          rfl, Or.inr ⟨rfl, rfl⟩, by simp [addrLoop, hsock, hopt, hconn], ?_⟩
        simp [isSetupStep, isLocal]
      | ok =>
        right; right
        exact ⟨sockfd, rfl, rfl, rfl, by simp [addrLoop, hsock, hopt, hconn]⟩

theorem isSetupStep_not_reply {sockfd : Nat} {x : Event} (h : isSetupStep sockfd x = true) :
    isReply x = false := by
  cases x <;> simp_all [isSetupStep, isLocal, isReply]

theorem isSessionStep_recv {rp sockfd fd : Nat} {r : RecvResult}
    (h : isSessionStep rp sockfd (.recv fd r) = true) : fd = sockfd := by
  simpa [isSessionStep] using h

/-- The body of the address loop ends without a reply, or with the reply handled
and its socket closed. -/
theorem addrLoop_single_outcome (email : List Byte) (rp : Nat) (w : AddrInfo) (errno : Nat) :
    Outcome (addrLoop email rp [w] false errno) (fun sockfd => [.close sockfd]) := by
  rcases addrLoop_single_cases email rp w errno with
    ⟨e, -, h⟩ | ⟨sockfd, e, t, -, -, h, ht⟩ | ⟨sockfd, -, -, -, h⟩
  · left
    rw [h]
    exact ⟨rfl, by simp [isReply]⟩
  · left
    rw [h]
    refine ⟨rfl, ?_⟩
    intro x hx
    simp only [List.cons_append, List.mem_cons, List.mem_append, List.mem_singleton,
      List.not_mem_nil, or_false] at hx
    rcases hx with rfl | hx | rfl
    · rfl
    · exact isSetupStep_not_reply (ht x hx)
    · rfl
  · rw [h]
    have hsteps := attemptLoop_steps email rp sockfd w (List.range' 1 max_retries) false errno
    rcases attemptLoop_outcome email rp sockfd w (List.range' 1 max_retries) errno with
      ⟨hok, hno⟩ | ⟨hok, pre, fd, d, htr, hd, hpre⟩
    · left
      refine ⟨hok, ?_⟩
      intro x hx
      simp only [List.cons_append, List.mem_cons, List.mem_append, List.mem_singleton,
        List.not_mem_nil, or_false] at hx
      rcases hx with rfl | rfl | rfl | hx | rfl
      · rfl
      · rfl
      · rfl
      · exact hno x hx
      · rfl
    · right
      have hmem : Event.recv fd (.datagram d)
          ∈ (attemptLoop email rp sockfd w (List.range' 1 max_retries) false errno).trace := by
        rw [htr]; simp
      have hfd : fd = sockfd := isSessionStep_recv (hsteps _ hmem)
      subst hfd
      refine ⟨hok, .socket rp (.fd fd) :: .setsockopt fd .ok :: .connect fd .ok :: pre,
        fd, d, ?_, hd, ?_⟩
      · simp [htr]
      · intro x hx
        simp only [List.mem_cons] at hx
        rcases hx with rfl | rfl | rfl | hx
        · rfl
        · rfl
        · rfl
        · exact hpre x hx

/-- The address loop ends without a reply, or with the reply handled and its
socket closed, nothing else after it. -/
theorem addrLoop_outcome (email : List Byte) (rp : Nat) (res : List AddrInfo) (errno : Nat) :
    Outcome (addrLoop email rp res false errno) (fun sockfd => [.close sockfd]) := by
  induction res generalizing rp errno with
  | nil => left; simp [addrLoop_nil]
  | cons w next ih =>
    rw [addrLoop_cons]
    rcases addrLoop_single_outcome email rp w errno with
      ⟨hok, hno⟩ | ⟨hok, pre, fd, d, htr, hd, hpre⟩
    · rw [hok]
      rcases ih (rp + 1) (addrLoop email rp [w] false errno).errno with
        ⟨hok', hno'⟩ | ⟨hok', pre, fd, d, htr, hd, hpre⟩
      · left
        refine ⟨hok', ?_⟩
        intro x hx
        rcases List.mem_append.1 hx with hx | hx
        · exact hno x hx
        · exact hno' x hx
      · right
        refine ⟨hok', (addrLoop email rp [w] false errno).trace ++ pre, fd, d, ?_, hd, ?_⟩
        · simp only [htr, List.append_assoc]
        · intro x hx
          rcases List.mem_append.1 hx with hx | hx
          · exact hno x hx
          · exact hpre x hx
    · right
      rw [hok, addrLoop_done]
      exact ⟨rfl, pre, fd, d, by simpa using htr, hd, hpre⟩

/-- The whole run: exit status 1 and no reply at all, or exit status 0 and the
trace ends with the handling of the one reply, `close` and `freeaddrinfo`. -/
theorem main_outcome (argv : List (List Byte)) (ret : Int) (res : List AddrInfo)
    (errno : Nat) :
    ((main argv ret res errno).status = 1
        ∧ ∀ x ∈ (main argv ret res errno).trace, isReply x = false)
    ∨ ((main argv ret res errno).status = 0
        ∧ ∃ pre sockfd d,
            (main argv ret res errno).trace
              = pre ++ .recv sockfd (.datagram d)
                  :: (handling d ++ [.close sockfd, .freeaddrinfo])
            ∧ 32 ≤ (received d).length ∧ ∀ x ∈ pre, isReply x = false) := by
  unfold main
  split
  · left; simp [isReply]
  · split
    · left; simp [isReply]
    · rcases addrLoop_outcome (argv.getD 3 []) 0 res errno with
        ⟨hok, hno⟩ | ⟨hok, pre, fd, d, htr, hd, hpre⟩
      · left
        simp only [hok]
        refine ⟨rfl, ?_⟩
        intro x hx
        simp only [Bool.not_false, if_true, List.mem_append, List.mem_cons,
          List.not_mem_nil, or_false] at hx
        rcases hx with hx | rfl | rfl
        · exact hno x hx
        · rfl
        · rfl
      · right
        simp only [hok]
        exact ⟨rfl, pre, fd, d, by rw [htr]; simp, hd, hpre⟩

/-- A list has at most one way of being split around its only reply. -/
theorem reply_unique {pre post pre' post' : List Event} {e e' : Event}
    (h : pre ++ e :: post = pre' ++ e' :: post') (he' : isReply e' = true)
    (hpre : ∀ x ∈ pre, isReply x = false) (hpost : ∀ x ∈ post, isReply x = false) :
    pre' = pre ∧ e' = e ∧ post' = post := by
  induction pre generalizing pre' with
  | nil =>
    cases pre' with
    | nil =>
      simp only [List.nil_append, List.cons.injEq] at h
      exact ⟨rfl, h.1.symm, h.2.symm⟩
    | cons y ys =>
      simp only [List.nil_append, List.cons_append, List.cons.injEq] at h
      have := hpost e' (by rw [h.2]; simp)
      rw [he'] at this
      exact absurd this (by decide)
  | cons x xs ih =>
    cases pre' with
    | nil =>
      simp only [List.nil_append, List.cons_append, List.cons.injEq] at h
      have := hpre x (by simp)
      rw [h.1, he'] at this
      exact absurd this (by decide)
    | cons y ys =>
      simp only [List.cons_append, List.cons.injEq] at h
      have := ih h.2 (fun z hz => hpre z (by simp [hz]))
      exact ⟨by rw [this.1, h.1], this.2.1, this.2.2⟩

theorem handling_no_reply (d : List Byte) : ∀ x ∈ handling d, isReply x = false :=
  fun x hx => isLocal_not_reply (handling_local d x hx)

/-- Whatever was received, once at least 32 bytes reached the buffer the run ends
with exit status 0 and does nothing after that `recv` except handle the reply,
close the socket and free the address list. -/
theorem main_after_reply (argv : List (List Byte)) (ret : Int) (res : List AddrInfo)
    (errno : Nat) (pre post : List Event) (sockfd : Nat) (d : List Byte)
    (h : (main argv ret res errno).trace = pre ++ .recv sockfd (.datagram d) :: post)
    (hd : 32 ≤ (received d).length) :
    (main argv ret res errno).status = 0
    ∧ post = handling d ++ [.close sockfd, .freeaddrinfo] := by
  rcases main_outcome argv ret res errno with ⟨-, hno⟩ | ⟨hst, pre0, fd0, d0, htr, hd0, hpre0⟩
  · have := hno (.recv sockfd (.datagram d)) (by rw [h]; simp)
    simp [isReply, hd] at this
  · refine ⟨hst, ?_⟩
    rw [htr] at h
    have hu := reply_unique h (by simp [isReply, hd]) hpre0 (by
      intro x hx
      rcases List.mem_append.1 hx with hx | hx
      · exact handling_no_reply d0 x hx
      · simp only [List.mem_cons, List.not_mem_nil, or_false] at hx
        rcases hx with rfl | rfl <;> rfl)
    obtain ⟨-, he, hp⟩ := hu
    simp only [Event.recv.injEq, RecvResult.datagram.injEq] at he
    obtain ⟨rfl, rfl⟩ := he
    exact hp

/-! ## Counting sends, socket calls and handles -/

theorem isSessionStep_neutral {rp sockfd : Nat} {x : Event}
    (h : isSessionStep rp sockfd x = true) : isHandleNeutral x = true := by
  cases x <;> simp_all [isSessionStep, isLocal, isHandleNeutral]

theorem isSetupStep_neutral {sockfd : Nat} {x : Event}
    (h : isSetupStep sockfd x = true) : isHandleNeutral x = true := by
  cases x <;> simp_all [isSetupStep, isLocal, isHandleNeutral]

theorem isSetupStep_not_send {sockfd : Nat} {x : Event}
    (h : isSetupStep sockfd x = true) : isSend x = false := by
  cases x <;> simp_all [isSetupStep, isLocal, isSend]

theorem isSendTo_isSend {rp : Nat} {x : Event} (h : isSendTo rp x = true) :
    isSend x = true := by
  cases x <;> simp_all [isSendTo, isSend]

theorem isSessionStep_sendTo {rp sockfd j : Nat} {x : Event}
    (h : isSessionStep rp sockfd x = true) (hj : j ≠ rp) : isSendTo j x = false := by
  cases x <;> simp_all [isSessionStep, isSendTo]
  omega

theorem sendsTo_le_sends (j : Nat) (t : List Event) : sendsTo j t ≤ t.countP isSend :=
  List.countP_mono_left (fun _ _ h => isSendTo_isSend h)

theorem sendsTo_append (j : Nat) (t u : List Event) :
    sendsTo j (t ++ u) = sendsTo j t + sendsTo j u := by
  simp [sendsTo]

theorem socketCalls_append (t u : List Event) :
    socketCalls (t ++ u) = socketCalls t ++ socketCalls u := by
  simp [socketCalls]

theorem socketCalls_neutral {t : List Event} (ht : ∀ x ∈ t, isHandleNeutral x = true) :
    socketCalls t = [] := by
  simp only [socketCalls, List.filterMap_eq_nil_iff]
  intro x hx
  have := ht x hx
  cases x <;> simp_all [isHandleNeutral]

theorem handleAfter_append (cur : Option Nat) (t u : List Event) :
    handleAfter cur (t ++ u) = (handleAfter cur t).bind (fun c => handleAfter c u) := by
  induction t generalizing cur with
  | nil => simp [handleAfter]
  | cons e t ih =>
    simp only [List.cons_append, handleAfter]
    cases handleStep cur e with
    | none => simp
    | some c => simp [ih]

theorem handleAfter_neutral (cur : Option Nat) {t : List Event}
    (ht : ∀ x ∈ t, isHandleNeutral x = true) : handleAfter cur t = some cur := by
  induction t with
  | nil => simp [handleAfter]
  | cons e t ih =>
    have he := ht e (by simp)
    have hstep : handleStep cur e = some cur := by
      cases e <;> simp_all [isHandleNeutral, handleStep]
    simp only [handleAfter, hstep, Option.some_bind]
    exact ih (fun x hx => ht x (by simp [hx]))

theorem handlesOpened_neutral {t : List Event} (ht : ∀ x ∈ t, isHandleNeutral x = true) :
    handlesOpened t = 0 := by
  simp only [handlesOpened, List.countP_eq_zero]
  intro x hx
  have := ht x hx
  cases x <;> simp_all [isHandleNeutral]

theorem handlesClosed_neutral {t : List Event} (ht : ∀ x ∈ t, isHandleNeutral x = true) :
    handlesClosed t = 0 := by
  simp only [handlesClosed, List.countP_eq_zero]
  intro x hx
  have := ht x hx
  cases x <;> simp_all [isHandleNeutral]

theorem socketCalls_session (rp sockfd : Nat) {t : List Event}
    (hn : ∀ x ∈ t, isHandleNeutral x = true) :
    socketCalls (.socket rp (.fd sockfd) :: t ++ [.close sockfd]) = [rp] := by
  have hshape : Event.socket rp (.fd sockfd) :: t ++ [.close sockfd]
      = [.socket rp (.fd sockfd)] ++ t ++ [.close sockfd] := rfl
  rw [hshape, socketCalls_append, socketCalls_append, socketCalls_neutral hn]
  rfl

theorem handleAfter_session (rp sockfd : Nat) {t : List Event}
    (hn : ∀ x ∈ t, isHandleNeutral x = true) :
    handleAfter none (.socket rp (.fd sockfd) :: t ++ [.close sockfd]) = some none := by
  simp [handleAfter, handleStep, handleAfter_append, handleAfter_neutral _ hn]

theorem handles_session (rp sockfd : Nat) {t : List Event}
    (hn : ∀ x ∈ t, isHandleNeutral x = true) :
    handlesOpened (.socket rp (.fd sockfd) :: t ++ [.close sockfd]) = 1
    ∧ handlesClosed (.socket rp (.fd sockfd) :: t ++ [.close sockfd]) = 1 := by
  have ho := handlesOpened_neutral hn
  have hc := handlesClosed_neutral hn
  have hshape : Event.socket rp (.fd sockfd) :: t ++ [.close sockfd]
      = [.socket rp (.fd sockfd)] ++ t ++ [.close sockfd] := rfl
  rw [hshape]
  unfold handlesOpened handlesClosed at *
  rw [List.countP_append, List.countP_append, List.countP_append, List.countP_append, ho, hc]
  exact ⟨rfl, rfl⟩

theorem sends_session (rp sockfd : Nat) (t : List Event) :
    List.countP isSend (Event.socket rp (.fd sockfd) :: t ++ [Event.close sockfd])
      = List.countP isSend t
    ∧ ∀ j, sendsTo j (Event.socket rp (.fd sockfd) :: t ++ [Event.close sockfd])
        = sendsTo j t := by
  refine ⟨?_, fun j => ?_⟩
  · simp [List.countP_cons, List.countP_append, isSend]
  · simp [sendsTo, List.countP_cons, List.countP_append, isSendTo]

/-- The body of the address loop on address `rp` either fails in `socket`, or
creates a socket, performs steps that neither create nor release a handle, among
them at most `max_retries` sends, all to `rp`, and closes the socket. -/
theorem addrLoop_single_shape (email : List Byte) (rp : Nat) (w : AddrInfo) (errno : Nat) :
    (∃ e, (addrLoop email rp [w] false errno).trace = [.socket rp (.fail e)])
    ∨ (∃ sockfd t, (addrLoop email rp [w] false errno).trace
          = .socket rp (.fd sockfd) :: t ++ [.close sockfd]
        ∧ (∀ x ∈ t, isHandleNeutral x = true)
        ∧ t.countP isSend ≤ max_retries
        ∧ ∀ j, j ≠ rp → sendsTo j t = 0) := by
  rcases addrLoop_single_cases email rp w errno with
    ⟨e, -, h⟩ | ⟨sockfd, e, t, -, -, h, ht⟩ | ⟨sockfd, -, -, -, h⟩
  · left
    exact ⟨e, by rw [h]⟩
  · right
    have hs : t.countP isSend = 0 := by
      rw [List.countP_eq_zero]
      intro x hx
      simp [isSetupStep_not_send (ht x hx)]
    refine ⟨sockfd, t, by rw [h], fun x hx => isSetupStep_neutral (ht x hx), by omega, ?_⟩
    intro j _
    exact Nat.le_zero.1 (hs ▸ sendsTo_le_sends j t)
  · right
    have hsteps := attemptLoop_steps email rp sockfd w (List.range' 1 max_retries) false errno
    have hle := attemptLoop_sends_le email rp sockfd w (List.range' 1 max_retries) false errno
    simp only [List.length_range'] at hle
    refine ⟨sockfd, .setsockopt sockfd .ok :: .connect sockfd .ok
      :: (attemptLoop email rp sockfd w (List.range' 1 max_retries) false errno).trace,
      by rw [h], ?_, ?_, ?_⟩
    · intro x hx
      simp only [List.mem_cons] at hx
      rcases hx with rfl | rfl | hx
      · rfl
      · rfl
      · exact isSessionStep_neutral (hsteps x hx)
    · simpa [List.countP_cons, isSend] using hle
    · intro j hj
      have : sendsTo j (attemptLoop email rp sockfd w (List.range' 1 max_retries) false
          errno).trace = 0 := by
        simp only [sendsTo, List.countP_eq_zero]
        intro x hx
        simp [isSessionStep_sendTo (hsteps x hx) hj]
      simp only [sendsTo] at this ⊢
      simpa [List.countP_cons, isSendTo] using this

/-- What the body of the address loop does on address `rp`, in numbers: it calls
`socket` once, for `rp`; it sends at most `max_retries` times, and only to `rp`;
it leaves no handle open and closes each handle it created exactly once. -/
theorem addrLoop_single_counts (email : List Byte) (rp : Nat) (w : AddrInfo) (errno : Nat) :
    socketCalls (addrLoop email rp [w] false errno).trace = [rp]
    ∧ (addrLoop email rp [w] false errno).trace.countP isSend ≤ max_retries
    ∧ (∀ j, j ≠ rp → sendsTo j (addrLoop email rp [w] false errno).trace = 0)
    ∧ handleAfter none (addrLoop email rp [w] false errno).trace = some none
    ∧ handlesOpened (addrLoop email rp [w] false errno).trace
        = handlesClosed (addrLoop email rp [w] false errno).trace := by
  rcases addrLoop_single_shape email rp w errno with ⟨e, h⟩ | ⟨sockfd, t, h, hn, hle, hj⟩
  · rw [h]
    refine ⟨rfl, by simp [isSend], fun j _ => by simp [sendsTo, isSendTo], ?_, ?_⟩
    · simp [handleAfter, handleStep]
    · simp [handlesOpened, handlesClosed]
  · rw [h]
    refine ⟨socketCalls_session rp sockfd hn, ?_, ?_, handleAfter_session rp sockfd hn, ?_⟩
    · rw [(sends_session rp sockfd t).1]; exact hle
    · intro j hne
      rw [(sends_session rp sockfd t).2 j]; exact hj j hne
    · rw [(handles_session rp sockfd hn).1, (handles_session rp sockfd hn).2]

/-- The address loop started at position `rp`: it calls `socket` on consecutive
positions from `rp` on; it sends to no position at most `max_retries` times, to
positions before `rp` never; it leaves no handle open and closes each handle it
created exactly once. -/
theorem addrLoop_counts (email : List Byte) (rp : Nat) (res : List AddrInfo) (ok : Bool)
    (errno : Nat) :
    (∃ m, m ≤ res.length
        ∧ socketCalls (addrLoop email rp res ok errno).trace = List.range' rp m)
    ∧ (∀ j, sendsTo j (addrLoop email rp res ok errno).trace ≤ max_retries)
    ∧ (∀ j, j < rp → sendsTo j (addrLoop email rp res ok errno).trace = 0)
    ∧ (addrLoop email rp res ok errno).trace.countP isSend ≤ max_retries * res.length
    ∧ handleAfter none (addrLoop email rp res ok errno).trace = some none
    ∧ handlesOpened (addrLoop email rp res ok errno).trace
        = handlesClosed (addrLoop email rp res ok errno).trace := by
  cases ok with
  | true =>
    rw [addrLoop_done]
    exact ⟨⟨0, Nat.zero_le _, rfl⟩, fun _ => Nat.zero_le _, fun _ _ => rfl, Nat.zero_le _,
      rfl, rfl⟩
  | false =>
    induction res generalizing rp errno with
    | nil =>
      rw [addrLoop_nil]
      exact ⟨⟨0, Nat.zero_le _, rfl⟩, fun _ => Nat.zero_le _, fun _ _ => rfl,
        Nat.zero_le _, rfl, rfl⟩
    | cons w next ih =>
      rw [addrLoop_cons]
      obtain ⟨hsc, hsn, hsj, hha, hho⟩ := addrLoop_single_counts email rp w errno
      have hrest : ∀ ok' e',
          (∃ m, m ≤ next.length
              ∧ socketCalls (addrLoop email (rp + 1) next ok' e').trace
                  = List.range' (rp + 1) m)
          ∧ (∀ j, sendsTo j (addrLoop email (rp + 1) next ok' e').trace ≤ max_retries)
          ∧ (∀ j, j < rp + 1 → sendsTo j (addrLoop email (rp + 1) next ok' e').trace = 0)
          ∧ (addrLoop email (rp + 1) next ok' e').trace.countP isSend
              ≤ max_retries * next.length
          ∧ handleAfter none (addrLoop email (rp + 1) next ok' e').trace = some none
          ∧ handlesOpened (addrLoop email (rp + 1) next ok' e').trace
              = handlesClosed (addrLoop email (rp + 1) next ok' e').trace := by
        intro ok' e'
        cases ok' with
        | true =>
          rw [addrLoop_done]
          exact ⟨⟨0, Nat.zero_le _, rfl⟩, fun _ => Nat.zero_le _, fun _ _ => rfl,
            Nat.zero_le _, rfl, rfl⟩
        | false => exact ih (rp + 1) e'
      obtain ⟨⟨m, hm, hrc⟩, hrn, hrj, hrs, hra, hro⟩ :=
        hrest (addrLoop email rp [w] false errno).overall_success
          (addrLoop email rp [w] false errno).errno
      refine ⟨⟨m + 1, by simp only [List.length_cons]; omega, ?_⟩, ?_, ?_, ?_, ?_, ?_⟩
      · rw [socketCalls_append, hsc, hrc, List.range'_succ]
        rfl
      · intro j
        rw [sendsTo_append]
        by_cases hj : j = rp
        · rw [hrj j (by omega)]
          have := sendsTo_le_sends j (addrLoop email rp [w] false errno).trace
          omega
        · rw [hsj j hj]
          have := hrn j
          omega
      · intro j hj
        rw [sendsTo_append, hsj j (by omega), hrj j (by omega)]
      · rw [List.countP_append, List.length_cons, Nat.mul_succ]
        omega
      · rw [handleAfter_append, hha]
        exact hra
      · unfold handlesOpened handlesClosed at *
        rw [List.countP_append, List.countP_append, hho, hro]

theorem isLocal_neutral {x : Event} (h : isLocal x = true) : isHandleNeutral x = true := by
  cases x <;> simp_all [isLocal, isHandleNeutral]

/-- A run is the address loop followed by steps that touch no socket, or only
such steps when the arguments or the resolution are rejected. -/
theorem main_trace (argv : List (List Byte)) (ret : Int) (res : List AddrInfo)
    (errno : Nat) :
    ∃ tail, (∀ x ∈ tail, isLocal x = true)
      ∧ ((main argv ret res errno).trace = [] ++ tail
          ∨ (main argv ret res errno).trace
              = (addrLoop (argv.getD 3 []) 0 res false errno).trace ++ tail) := by
  unfold main
  split
  · exact ⟨_, by simp [isLocal], Or.inl rfl⟩
  · split
    · exact ⟨_, by simp [isLocal], Or.inl rfl⟩
    · by_cases hok : (addrLoop (argv.getD 3 []) 0 res false errno).overall_success = true
      · exact ⟨[.freeaddrinfo], by simp [isLocal], Or.inr (by simp only [hok]; rfl)⟩
      · have hok' : (addrLoop (argv.getD 3 []) 0 res false errno).overall_success = false := by
          simpa using hok
        exact ⟨[.freeaddrinfo,
          .cerr "No valid response after trying all addresses and retries.\n"],
          by simp [isLocal], Or.inr (by simp only [hok']; rfl)⟩

/-- The counts of `addrLoop_counts` for the whole run. -/
theorem main_counts (argv : List (List Byte)) (ret : Int) (res : List AddrInfo)
    (errno : Nat) :
    (∃ m, m ≤ res.length ∧ socketCalls (main argv ret res errno).trace = List.range m)
    ∧ (∀ j, sendsTo j (main argv ret res errno).trace ≤ max_retries)
    ∧ (main argv ret res errno).trace.countP isSend ≤ max_retries * res.length
    ∧ handleAfter none (main argv ret res errno).trace = some none
    ∧ handlesOpened (main argv ret res errno).trace
        = handlesClosed (main argv ret res errno).trace := by
  obtain ⟨tail, hlocal, htr⟩ := main_trace argv ret res errno
  have hn : ∀ x ∈ tail, isHandleNeutral x = true := fun x hx => isLocal_neutral (hlocal x hx)
  have hs : tail.countP isSend = 0 := by
    rw [List.countP_eq_zero]
    intro x hx
    simp [isLocal_not_send (hlocal x hx)]
  have hst : ∀ j, sendsTo j tail = 0 := fun j => Nat.le_zero.1 (hs ▸ sendsTo_le_sends j tail)
  have hbody : ∀ body : List Event,
      (∃ m, m ≤ res.length ∧ socketCalls body = List.range m)
      → (∀ j, sendsTo j body ≤ max_retries)
      → body.countP isSend ≤ max_retries * res.length
      → handleAfter none body = some none
      → handlesOpened body = handlesClosed body
      → (∃ m, m ≤ res.length ∧ socketCalls (body ++ tail) = List.range m)
        ∧ (∀ j, sendsTo j (body ++ tail) ≤ max_retries)
        ∧ (body ++ tail).countP isSend ≤ max_retries * res.length
        ∧ handleAfter none (body ++ tail) = some none
        ∧ handlesOpened (body ++ tail) = handlesClosed (body ++ tail) := by
    rintro body ⟨m, hm, hsc⟩ h2 h3 h4 h5
    refine ⟨⟨m, hm, ?_⟩, fun j => ?_, ?_, ?_, ?_⟩
    · rw [socketCalls_append, hsc, socketCalls_neutral hn, List.append_nil]
    · rw [sendsTo_append, hst j]; exact h2 j
    · rw [List.countP_append, hs]; exact h3
    · rw [handleAfter_append, h4]; exact handleAfter_neutral none hn
    · have ho := handlesOpened_neutral hn
      have hc := handlesClosed_neutral hn
      unfold handlesOpened handlesClosed at *
      rw [List.countP_append, List.countP_append, ho, hc, h5]
  rcases htr with htr | htr
  · rw [htr]
    exact hbody [] ⟨0, Nat.zero_le _, rfl⟩ (fun _ => Nat.zero_le _) (Nat.zero_le _) rfl rfl
  · rw [htr]
    obtain ⟨⟨m, hm, hsc⟩, h2, -, h3, h4, h5⟩ :=
      addrLoop_counts (argv.getD 3 []) 0 res false errno
    rw [← List.range_eq_range'] at hsc
    exact hbody _ ⟨m, hm, hsc⟩ h2 h3 h4 h5

/-! ## Scenarios: silent addresses, then a reply -/

theorem timeoutErrno_EAGAIN : timeoutErrno EAGAIN := Or.inl rfl

/-- Attempts that time out are retried one after the other; the loop then goes
on with the remaining attempts. -/
theorem attemptLoop_timeouts (email : List Byte) (rp sockfd : Nat) (w : AddrInfo)
    (before after : List Nat) (errno : Nat) (hto : ∀ a ∈ before, TimesOut w a) :
    attemptLoop email rp sockfd w (before ++ after) false errno
      = ⟨(attemptLoop email rp sockfd w after false
            (if before = [] then errno else EAGAIN)).overall_success,
         (attemptLoop email rp sockfd w after false
            (if before = [] then errno else EAGAIN)).errno,
         timeoutRounds email rp sockfd before
           ++ (attemptLoop email rp sockfd w after false
                (if before = [] then errno else EAGAIN)).trace⟩ := by
  induction before generalizing errno with
  | nil => simp [timeoutRounds]
  | cons a rest ih =>
    obtain ⟨hs, hr⟩ := hto a (by simp)
    rw [List.cons_append, attemptLoop_timeout _ _ _ _ _ _ _ _ hs hr timeoutErrno_EAGAIN,
      ih EAGAIN (fun b hb => hto b (by simp [hb]))]
    simp [timeoutRounds, timeoutSteps]

theorem timeoutRounds_counts (email : List Byte) (rp sockfd : Nat) (atts : List Nat) :
    (∀ x ∈ timeoutRounds email rp sockfd atts, isStdout x = false)
    ∧ sendsTo rp (timeoutRounds email rp sockfd atts) = atts.length
    ∧ (∀ j, j ≠ rp → sendsTo j (timeoutRounds email rp sockfd atts) = 0) := by
  induction atts with
  | nil => simp [timeoutRounds, sendsTo]
  | cons a rest ih =>
    obtain ⟨h1, h2, h3⟩ := ih
    refine ⟨?_, ?_, ?_⟩
    · intro x hx
      simp only [timeoutRounds, timeoutSteps, timeoutMsg, List.cons_append, List.nil_append,
        List.mem_cons] at hx
      rcases hx with rfl | rfl | rfl | hx
      · rfl
      · rfl
      · rfl
      · exact h1 x hx
    · rw [timeoutRounds, sendsTo_append, h2]
      simp [sendsTo, timeoutSteps, timeoutMsg, List.countP_cons, isSendTo]
      omega
    · intro j hj
      rw [timeoutRounds, sendsTo_append, h3 j hj]
      have : ¬ rp = j := fun h => hj h.symm
      simp [sendsTo, timeoutSteps, timeoutMsg, List.countP_cons, isSendTo, this]

/-- The body of the address loop on an address that opens. -/
theorem addrLoop_single_open (email : List Byte) (rp : Nat) (w : AddrInfo) (errno : Nat)
    (sockfd : Nat) (ho : Opens w sockfd) :
    addrLoop email rp [w] false errno
      = ⟨(attemptLoop email rp sockfd w (List.range' 1 max_retries) false
            errno).overall_success,
         (attemptLoop email rp sockfd w (List.range' 1 max_retries) false errno).errno,
         [.socket rp (.fd sockfd), .setsockopt sockfd .ok, .connect sockfd .ok]
           ++ (attemptLoop email rp sockfd w (List.range' 1 max_retries) false errno).trace
           ++ [.close sockfd]⟩ := by
  obtain ⟨h1, h2, h3⟩ := ho
  simp [addrLoop, h1, h2, h3]

/-- The body of the address loop on a silent address: three requests, three
timeouts, then `close`. -/
theorem addrLoop_single_silent (email : List Byte) (rp : Nat) (w : AddrInfo) (errno : Nat)
    (sockfd : Nat) (ho : Opens w sockfd)
    (hto : ∀ a, 1 ≤ a → a ≤ max_retries → TimesOut w a) :
    addrLoop email rp [w] false errno
      = ⟨false, EAGAIN,
         [.socket rp (.fd sockfd), .setsockopt sockfd .ok, .connect sockfd .ok]
           ++ timeoutRounds email rp sockfd [1, 2, 3] ++ [.close sockfd]⟩ := by
  rw [addrLoop_single_open email rp w errno sockfd ho]
  have hall : ∀ a ∈ [1, 2, 3], TimesOut w a := by
    intro a ha
    simp only [List.mem_cons, List.not_mem_nil, or_false] at ha
    exact hto a (by omega) (by simp only [max_retries]; omega)
  have hrange : List.range' 1 max_retries = [1, 2, 3] ++ [] := rfl
  rw [hrange, attemptLoop_timeouts email rp sockfd w [1, 2, 3] [] errno hall]
  simp [attemptLoop_nil]

theorem coutWrites_append (t u : List Event) :
    coutWrites (t ++ u) = coutWrites t ++ coutWrites u := by
  simp [coutWrites]

theorem coutWrites_of_no_stdout {t : List Event} (ht : ∀ x ∈ t, isStdout x = false) :
    coutWrites t = [] := by
  simp only [coutWrites, List.filterMap_eq_nil_iff]
  intro x hx
  have := ht x hx
  cases x <;> simp_all [isStdout]

theorem timeoutRounds_neutral (email : List Byte) (rp sockfd : Nat) (atts : List Nat) :
    ∀ x ∈ timeoutRounds email rp sockfd atts, isHandleNeutral x = true := by
  induction atts with
  | nil => simp [timeoutRounds]
  | cons a rest ih =>
    intro x hx
    simp only [timeoutRounds, timeoutSteps, timeoutMsg, List.cons_append, List.nil_append,
      List.mem_cons] at hx
    rcases hx with rfl | rfl | rfl | hx
    · rfl
    · rfl
    · rfl
    · exact ih x hx

theorem sendsTo_handling (j : Nat) (d : List Byte) : sendsTo j (handling d) = 0 :=
  Nat.le_zero.1 (countP_isSend_handling d ▸ sendsTo_le_sends j (handling d))

theorem socketCalls_handling (d : List Byte) : socketCalls (handling d) = [] :=
  socketCalls_neutral (fun x hx => isLocal_neutral (handling_local d x hx))

/-- Observations on the steps of a session: `socket`, `setsockopt`, `connect`,
the steps `mid` of the retry loop, `close`. -/
theorem session_frame (rp sockfd : Nat) (mid : List Event) :
    (∀ j, sendsTo j ([.socket rp (.fd sockfd), .setsockopt sockfd .ok, .connect sockfd .ok]
            ++ mid ++ [.close sockfd]) = sendsTo j mid)
    ∧ socketCalls ([.socket rp (.fd sockfd), .setsockopt sockfd .ok, .connect sockfd .ok]
            ++ mid ++ [.close sockfd]) = rp :: socketCalls mid
    ∧ coutWrites ([.socket rp (.fd sockfd), .setsockopt sockfd .ok, .connect sockfd .ok]
            ++ mid ++ [.close sockfd]) = coutWrites mid := by
  refine ⟨fun j => ?_, ?_, ?_⟩
  · rw [sendsTo_append, sendsTo_append]
    simp [sendsTo, isSendTo]
  · rw [socketCalls_append, socketCalls_append]
    simp [socketCalls]
  · rw [coutWrites_append, coutWrites_append]
    simp [coutWrites]

/-- The address loop over silent addresses: every address is visited in order
and receives exactly `max_retries` requests, nothing is written to standard
output, and the loop ends without success. -/
theorem addrLoop_silent (email : List Byte) (rp : Nat) (l : List AddrInfo) (errno : Nat)
    (hs : ∀ w ∈ l, Silent w) :
    (addrLoop email rp l false errno).overall_success = false
    ∧ coutWrites (addrLoop email rp l false errno).trace = []
    ∧ (∀ x ∈ (addrLoop email rp l false errno).trace, isStdout x = false)
    ∧ (∀ j, rp ≤ j → j < rp + l.length
        → sendsTo j (addrLoop email rp l false errno).trace = max_retries)
    ∧ (∀ j, j < rp ∨ rp + l.length ≤ j
        → sendsTo j (addrLoop email rp l false errno).trace = 0)
    ∧ socketCalls (addrLoop email rp l false errno).trace = List.range' rp l.length := by
  induction l generalizing rp errno with
  | nil =>
    rw [addrLoop_nil]
    refine ⟨rfl, rfl, by simp, ?_, fun _ _ => rfl, rfl⟩
    intro j h1 h2
    simp only [List.length_nil] at h2
    omega
  | cons w next ih =>
    obtain ⟨⟨sockfd, ho⟩, hto⟩ := hs w (by simp)
    have hsingle := addrLoop_single_silent email rp w errno sockfd ho hto
    obtain ⟨f1, f2, f3⟩ := session_frame rp sockfd (timeoutRounds email rp sockfd [1, 2, 3])
    obtain ⟨c1, c2, c3⟩ := timeoutRounds_counts email rp sockfd [1, 2, 3]
    obtain ⟨i1, i2, i3, i4, i5, i6⟩ := ih (rp + 1) EAGAIN (fun v hv => hs v (by simp [hv]))
    rw [addrLoop_cons, hsingle]
    refine ⟨i1, ?_, ?_, ?_, ?_, ?_⟩
    · rw [coutWrites_append, f3, coutWrites_of_no_stdout c1, i2]
      rfl
    · intro x hx
      rcases List.mem_append.1 hx with hx | hx
      · simp only [List.cons_append, List.nil_append, List.mem_cons, List.mem_append,
          List.not_mem_nil, or_false] at hx
        rcases hx with rfl | rfl | rfl | hx | rfl
        · rfl
        · rfl
        · rfl
        · exact c1 x hx
        · rfl
      · exact i3 x hx
    · intro j h1 h2
      simp only [List.length_cons] at h2
      rw [sendsTo_append, f1 j]
      by_cases hj : j = rp
      · subst hj
        rw [c2, i5 j (Or.inl (by omega))]
        rfl
      · rw [c3 j hj, i4 j (by omega) (by omega)]
        omega
    · intro j hj
      simp only [List.length_cons] at hj
      rw [sendsTo_append, f1 j, c3 j (by omega), i5 j (by omega)]
    · rw [socketCalls_append, f2, socketCalls_neutral (timeoutRounds_neutral _ _ _ _), i6,
        List.length_cons, List.range'_succ]
      rfl

/-- The address loop over `l1 ++ l2` is the loop over `l1` followed by the loop
over `l2`, started from the flag and `errno` left by the first. -/
theorem addrLoop_append (email : List Byte) (rp : Nat) (l1 l2 : List AddrInfo) (ok : Bool)
    (errno : Nat) :
    addrLoop email rp (l1 ++ l2) ok errno
      = ⟨(addrLoop email (rp + l1.length) l2 (addrLoop email rp l1 ok errno).overall_success
            (addrLoop email rp l1 ok errno).errno).overall_success,
         (addrLoop email (rp + l1.length) l2 (addrLoop email rp l1 ok errno).overall_success
            (addrLoop email rp l1 ok errno).errno).errno,
         (addrLoop email rp l1 ok errno).trace
           ++ (addrLoop email (rp + l1.length) l2
                (addrLoop email rp l1 ok errno).overall_success
                (addrLoop email rp l1 ok errno).errno).trace⟩ := by
  cases ok with
  | true => simp [addrLoop_done]
  | false =>
    induction l1 generalizing rp errno with
    | nil => simp [addrLoop_nil]
    | cons w next ih =>
      rw [List.cons_append, addrLoop_cons, addrLoop_cons email rp w next]
      cases hok : (addrLoop email rp [w] false errno).overall_success with
      | true => simp [addrLoop_done]
      | false =>
        rw [ih]
        simp [Nat.add_assoc, Nat.add_comm 1]

/-- The attempts before attempt `j`, attempt `j`, and the attempts after it. -/
theorem attempts_split (j : Nat) (hj1 : 1 ≤ j) (hj3 : j ≤ max_retries) :
    ∃ before after, List.range' 1 max_retries = before ++ j :: after
      ∧ before.length + 1 = j ∧ ∀ a ∈ before, 1 ≤ a ∧ a < j := by
  have hj3' : j ≤ 3 := hj3
  interval_cases j
  · exact ⟨[], [2, 3], rfl, rfl, by simp⟩
  · exact ⟨[1], [3], rfl, rfl, by simp⟩
  · exact ⟨[1, 2], [], rfl, rfl, by
      intro a ha
      simp only [List.mem_cons, List.not_mem_nil, or_false] at ha
      omega⟩

/-- The body of the address loop on an address that opens, times out on the
attempts before `j` and delivers at least 32 bytes on attempt `j`: `j` requests,
the handling of the reply, `close`; the flag is set. -/
theorem addrLoop_single_reply_at (email : List Byte) (rp : Nat) (w : AddrInfo) (errno : Nat)
    (sockfd j : Nat) (d : List Byte) (ho : Opens w sockfd)
    (hj1 : 1 ≤ j) (hj3 : j ≤ max_retries)
    (hto : ∀ a, 1 ≤ a → a < j → TimesOut w a)
    (hs : w.send j = .ok) (hr : w.recv j = .datagram d) (hd : 32 ≤ (received d).length) :
    ∃ before e, before.length + 1 = j
      ∧ addrLoop email rp [w] false errno
          = ⟨true, e,
             [.socket rp (.fd sockfd), .setsockopt sockfd .ok, .connect sockfd .ok]
               ++ (timeoutRounds email rp sockfd before
                    ++ .send rp sockfd (request email) .ok :: .recv sockfd (.datagram d)
                         :: handling d)
               ++ [.close sockfd]⟩ := by
  obtain ⟨before, after, hsplit, hlen, hbefore⟩ := attempts_split j hj1 hj3
  refine ⟨before, if before = [] then errno else EAGAIN, hlen, ?_⟩
  rw [addrLoop_single_open email rp w errno sockfd ho, hsplit,
    attemptLoop_timeouts email rp sockfd w before (j :: after) errno
      (fun a ha => hto a (hbefore a ha).1 (hbefore a ha).2),
    attemptLoop_reply _ _ _ _ _ _ _ _ hs hr hd]

theorem main_of_args (argv : List (List Byte)) (res : List AddrInfo) (errno : Nat)
    (hargc : argv.length = 4) :
    main argv 0 res errno
      = if (addrLoop (argv.getD 3 []) 0 res false errno).overall_success = true then
          ⟨0, (addrLoop (argv.getD 3 []) 0 res false errno).trace ++ [.freeaddrinfo]⟩
        else
          ⟨1, (addrLoop (argv.getD 3 []) 0 res false errno).trace
                ++ [.freeaddrinfo,
                    .cerr "No valid response after trying all addresses and retries.\n"]⟩ := by
  unfold main
  rw [if_neg (by simp [hargc]), if_neg (by simp)]
  dsimp only
  generalize addrLoop (argv.getD 3 []) 0 res false errno = r
  rcases r with ⟨ok, e, t⟩
  cases ok <;> rfl

/-- A run in which the addresses `pre` are silent and the next address `w`
delivers at least 32 bytes on attempt `j` after timing out before: `main` returns
0, each address of `pre` got `max_retries` requests, `w` got `j`, the addresses
after `w` none, and what is written with `cout.write` is what the handling of
that reply writes. -/
theorem run_reply_after_silent (argv : List (List Byte)) (hargc : argv.length = 4)
    (pre : List AddrInfo) (w : AddrInfo) (post : List AddrInfo) (errno sockfd j : Nat)
    (d : List Byte) (hpre : ∀ v ∈ pre, Silent v) (ho : Opens w sockfd)
    (hj1 : 1 ≤ j) (hj3 : j ≤ max_retries)
    (hto : ∀ a, 1 ≤ a → a < j → TimesOut w a)
    (hs : w.send j = .ok) (hr : w.recv j = .datagram d) (hd : 32 ≤ (received d).length) :
    (main argv 0 (pre ++ w :: post) errno).status = 0
    ∧ coutWrites (main argv 0 (pre ++ w :: post) errno).trace = coutWrites (handling d)
    ∧ (∀ rp, rp < pre.length
        → sendsTo rp (main argv 0 (pre ++ w :: post) errno).trace = max_retries)
    ∧ sendsTo pre.length (main argv 0 (pre ++ w :: post) errno).trace = j
    ∧ (∀ rp, pre.length < rp → sendsTo rp (main argv 0 (pre ++ w :: post) errno).trace = 0)
    ∧ socketCalls (main argv 0 (pre ++ w :: post) errno).trace
        = List.range (pre.length + 1) := by
  obtain ⟨p1, p2, -, p4, p5, p6⟩ := addrLoop_silent (argv.getD 3 []) 0 pre errno hpre
  obtain ⟨before, e, hlen, hw⟩ :=
    addrLoop_single_reply_at (argv.getD 3 []) (0 + pre.length) w
      (addrLoop (argv.getD 3 []) 0 pre false errno).errno sockfd j d ho hj1 hj3 hto hs hr hd
  have hloop : addrLoop (argv.getD 3 []) 0 (pre ++ w :: post) false errno
      = ⟨true, e, (addrLoop (argv.getD 3 []) 0 pre false errno).trace
          ++ ([.socket (0 + pre.length) (.fd sockfd), .setsockopt sockfd .ok,
                .connect sockfd .ok]
               ++ (timeoutRounds (argv.getD 3 []) (0 + pre.length) sockfd before
                    ++ .send (0 + pre.length) sockfd (request (argv.getD 3 [])) .ok
                         :: .recv sockfd (.datagram d) :: handling d)
               ++ [.close sockfd])⟩ := by
    rw [addrLoop_append, p1, addrLoop_cons, hw, addrLoop_done]
    simp
  rw [main_of_args argv _ errno hargc, hloop]
  simp only [if_true]
  obtain ⟨f1, f2, f3⟩ := session_frame (0 + pre.length) sockfd
    (timeoutRounds (argv.getD 3 []) (0 + pre.length) sockfd before
      ++ .send (0 + pre.length) sockfd (request (argv.getD 3 [])) .ok
           :: .recv sockfd (.datagram d) :: handling d)
  obtain ⟨c1, c2, c3⟩ := timeoutRounds_counts (argv.getD 3 []) (0 + pre.length) sockfd before
  have hmid : ∀ rp, sendsTo rp (timeoutRounds (argv.getD 3 []) (0 + pre.length) sockfd before
      ++ .send (0 + pre.length) sockfd (request (argv.getD 3 [])) .ok
           :: .recv sockfd (.datagram d) :: handling d)
      = sendsTo rp (timeoutRounds (argv.getD 3 []) (0 + pre.length) sockfd before)
        + (if 0 + pre.length = rp then 1 else 0) := by
    intro rp
    rw [sendsTo_append]
    have h0 := sendsTo_handling rp d
    simp only [sendsTo] at h0 ⊢
    simp only [List.countP_cons, h0, isSendTo, beq_iff_eq]
    simp
  have hfree : ∀ rp, sendsTo rp [Event.freeaddrinfo] = 0 := fun _ => rfl
  refine ⟨trivial, ?_, ?_, ?_, ?_, ?_⟩
  · rw [coutWrites_append, coutWrites_append, p2, f3, coutWrites_append,
      coutWrites_of_no_stdout c1]
    simp [coutWrites]
  · intro rp hrp
    rw [sendsTo_append, sendsTo_append, p4 rp (by omega) (by omega), f1, hmid,
      c3 rp (by omega), hfree, if_neg (by omega)]
    omega
  · rw [sendsTo_append, sendsTo_append, p5 _ (Or.inr (by omega)), f1, hmid, hfree]
    have := c2
    simp only [Nat.zero_add] at this ⊢
    rw [this]
    simp only [if_true]
    omega
  · intro rp hrp
    rw [sendsTo_append, sendsTo_append, p5 rp (Or.inr (by omega)), f1, hmid,
      c3 rp (by omega), hfree, if_neg (by omega)]
  · rw [socketCalls_append, socketCalls_append, p6, f2, socketCalls_append,
      socketCalls_neutral (timeoutRounds_neutral _ _ _ _)]
    have hh := socketCalls_handling d
    simp only [socketCalls] at hh ⊢
    simp only [List.filterMap_cons, hh, List.nil_append, List.filterMap_nil,
      List.append_nil, Nat.zero_add]
    rw [List.range_eq_range', List.range'_1_concat]
    simp

/-! ## C3, C4: `handle_response` on well-formed and on short datagrams -/

/-- A datagram longer than the buffer is cut by `recv`: for the 4065-byte payload
`longPayload`, the datagram `SHA256 P ++ P` has 4097 bytes, 4096 of them are
received, and `handle_response` does not write out the bytes of `P`. -/
theorem handle_response_long_payload :
    coutWrites (handle_response 3 0 (.datagram (SHA256 longPayload ++ longPayload))).trace
      ≠ [longPayload] := by
  intro h
  have hlen := coutWrites_handle_response_length 3 0
    (.datagram (SHA256 longPayload ++ longPayload)) longPayload (by rw [h]; simp)
  have hl : longPayload.length = 4065 := List.length_replicate _ _
  rw [hl] at hlen
  exact absurd hlen (by decide)

/-- C3: for every payload `P`, when the bytes that `recv` delivers into the
4096-byte buffer of `handle_response` are `SHA256 P` followed by `P`, the digest
comparison finds them equal (and never unequal), `handle_response` returns
`true` and leaves `errno` alone, and the one block it passes to `cout.write` is
exactly `P`. -/
theorem C3_handle_response_digest_payload (sockfd errno : Nat) (d P : List Byte)
    (hd : received d = SHA256 P ++ P) :
    (handle_response sockfd errno (.datagram d)).ret = true
    ∧ (handle_response sockfd errno (.datagram d)).errno = errno
    ∧ Event.memcmp true ∈ (handle_response sockfd errno (.datagram d)).trace
    ∧ Event.memcmp false ∉ (handle_response sockfd errno (.datagram d)).trace
    ∧ coutWrites (handle_response sockfd errno (.datagram d)).trace = [P] := by
  have hl := SHA256_length P
  have hv : Verified (received d) := by
    rw [hd]; exact verified_digest_append P
  rw [handle_response_reply _ _ _ hv.1, handling_verified _ hv, hd]
  refine ⟨rfl, rfl, ?_, ?_, ?_⟩
  · simp
  · simp
  · simp [coutWrites, List.drop_left' hl]

/-- Witness of C3: the datagram `SHA256 "hello" ++ "hello"`. -/
theorem C3_witness_hello :
    received (SHA256 (ascii "hello") ++ ascii "hello") = SHA256 (ascii "hello") ++ ascii "hello"
    ∧ (handle_response 3 0 (.datagram (SHA256 (ascii "hello") ++ ascii "hello"))).ret = true
    ∧ (handle_response 3 0 (.datagram (SHA256 (ascii "hello") ++ ascii "hello"))).errno = 0
    ∧ Event.memcmp true ∈
        (handle_response 3 0 (.datagram (SHA256 (ascii "hello") ++ ascii "hello"))).trace
    ∧ Event.memcmp false ∉
        (handle_response 3 0 (.datagram (SHA256 (ascii "hello") ++ ascii "hello"))).trace
    ∧ coutWrites
        (handle_response 3 0 (.datagram (SHA256 (ascii "hello") ++ ascii "hello"))).trace
        = [ascii "hello"] :=
  ⟨by decide,
   C3_handle_response_digest_payload 3 0 (SHA256 (ascii "hello") ++ ascii "hello")
     (ascii "hello") (by decide)⟩

/-- C4: on a datagram of fewer than 32 bytes `handle_response` returns `false`,
computes and compares no digest and writes nothing to standard output: all it
does after `recv` is one diagnostic on standard error. -/
theorem C4_short_datagram_malformed (sockfd errno : Nat) (d : List Byte)
    (hd : d.length < 32) :
    (handle_response sockfd errno (.datagram d)).ret = false
    ∧ (∀ e ∈ (handle_response sockfd errno (.datagram d)).trace,
        isDigestStep e = false ∧ isStdout e = false)
    ∧ (handle_response sockfd errno (.datagram d)).trace =
        [.recv sockfd (.datagram d),
         .cerr ("Received packet too short (" ++ toString d.length
                  ++ " bytes, need >= 32)\n")] := by
  have hrec : received d = d := received_of_le (by simp only [BUF_SIZE]; omega)
  have hs : (received d).length < 32 := by rw [hrec]; exact hd
  rw [handle_response_short _ _ _ hs, hrec]
  refine ⟨rfl, ?_, rfl⟩
  intro e he
  simp at he
  rcases he with h | h <;> subst h <;> exact ⟨rfl, rfl⟩

/-- Witness of C4: the five bytes of "hello" alone. -/
theorem C4_witness_hello :
    (handle_response 3 0 (.datagram (ascii "hello"))).ret = false
    ∧ (∀ e ∈ (handle_response 3 0 (.datagram (ascii "hello"))).trace,
        isDigestStep e = false ∧ isStdout e = false)
    ∧ (handle_response 3 0 (.datagram (ascii "hello"))).trace =
        [.recv 3 (.datagram (ascii "hello")),
         .cerr ("Received packet too short (" ++ toString (ascii "hello").length
                  ++ " bytes, need >= 32)\n")] :=
  C4_short_datagram_malformed 3 0 (ascii "hello") (by decide)

/-! ## C1, C2: what counts as success -/

/-- C1 (as stated, refuted): one address answers 32 zero bytes followed by
"hello"; no datagram received in the run passes the digest check, yet `main`
returns 0. -/
theorem C1_counterexample_zero_digest :
    (main exampleArgv 0 [zeroDigestAddr] 0).status = 0
    ∧ (main exampleArgv 0 [zeroDigestAddr] 0).trace.any isVerifiedReply = false := by
  decide

/-- C1 (amended): `main` returns 0 exactly when some `recv` of the run delivered
at least 32 bytes into the buffer, whether or not the digest matched; in every
other run it returns 1. -/
theorem C1_success_iff_reply (argv : List (List Byte)) (ret : Int) (res : List AddrInfo)
    (errno : Nat) :
    ((main argv ret res errno).status = 0
      ↔ ∃ sockfd d, Event.recv sockfd (.datagram d) ∈ (main argv ret res errno).trace
          ∧ 32 ≤ (received d).length)
    ∧ ((main argv ret res errno).status = 0 ∨ (main argv ret res errno).status = 1) := by
  rcases main_outcome argv ret res errno with ⟨hst, hno⟩ | ⟨hst, pre, fd, d, htr, hd, -⟩
  · refine ⟨⟨fun h => ?_, ?_⟩, Or.inr hst⟩
    · rw [hst] at h; exact absurd h (by decide)
    · rintro ⟨fd, d, hmem, hd⟩
      have := hno _ hmem
      simp [isReply, hd] at this
  · refine ⟨⟨fun _ => ⟨fd, d, ?_, hd⟩, fun _ => hst⟩, Or.inl hst⟩
    rw [htr]; simp

/-- C2 (as stated, refuted): the first of two addresses answers 32 zero bytes
followed by "hello". The digests compare as different, yet the run ends there
with status 0: `socket` is called on the first address only and nothing is sent
to the second. -/
theorem C2_counterexample_no_failover :
    Event.memcmp false ∈ (main exampleArgv 0 [zeroDigestAddr, silentAddr] 0).trace
    ∧ socketCalls (main exampleArgv 0 [zeroDigestAddr, silentAddr] 0).trace = [0]
    ∧ sendsTo 1 (main exampleArgv 0 [zeroDigestAddr, silentAddr] 0).trace = 0
    ∧ (main exampleArgv 0 [zeroDigestAddr, silentAddr] 0).status = 0 := by
  decide

/-- C2 (amended): when a `recv` of the run delivers at least 32 bytes whose first
32 differ from the SHA-256 digest of the rest, everything the run does after that
`recv` is: compute the digest, compare it (unequal), print the mismatch line and
the received hash, close the socket, free the address list. So no second request
goes to that address, no further address is opened, and `main` returns 0. -/
theorem C2_mismatch_stops_run (argv : List (List Byte)) (ret : Int) (res : List AddrInfo)
    (errno : Nat) (pre post : List Event) (sockfd : Nat) (d : List Byte)
    (h : (main argv ret res errno).trace = pre ++ .recv sockfd (.datagram d) :: post)
    (hd : Mismatched (received d)) :
    post =
      [.sha256 ((received d).drop 32), .memcmp false,
       .cout ("Hash mismatch (read " ++ toString (received d).length
                ++ " bytes). Not printing quote.\n"),
       .cout "Hash:", .cout (String.join (((received d).take 32).map hex2)), .cout "\n",
       .close sockfd, .freeaddrinfo]
    ∧ (∀ x ∈ post, isSend x = false ∧ isSocket x = false)
    ∧ (main argv ret res errno).status = 0 := by
  obtain ⟨hst, hpost⟩ := main_after_reply argv ret res errno pre post sockfd d h hd.1
  rw [handling_mismatched d hd] at hpost
  refine ⟨by rw [hpost]; rfl, ?_, hst⟩
  intro x hx
  rw [hpost] at hx
  simp only [List.cons_append, List.nil_append, List.mem_cons, List.not_mem_nil,
    or_false] at hx
  rcases hx with rfl | rfl | rfl | rfl | rfl | rfl | rfl | rfl <;> exact ⟨rfl, rfl⟩

/-- Witness of C2 (amended): the run of the counterexample, split at its `recv`. -/
theorem C2_witness_zero_digest :
    (main exampleArgv 0 [zeroDigestAddr, silentAddr] 0).trace
        = zeroDigestPre ++ .recv 3 (.datagram zeroDigestReply) :: zeroDigestPost
    ∧ Mismatched (received zeroDigestReply)
    ∧ (∀ x ∈ zeroDigestPost, isSend x = false ∧ isSocket x = false)
    ∧ (main exampleArgv 0 [zeroDigestAddr, silentAddr] 0).status = 0 :=
  ⟨by decide, by decide,
   (C2_mismatch_stops_run exampleArgv 0 [zeroDigestAddr, silentAddr] 0
      zeroDigestPre zeroDigestPost 3 zeroDigestReply (by decide) (by decide)).2⟩

/-! ## C5: a short reply after a timeout -/

/-- C5 (behaviour of the code at the failing input): one address, silent on
attempt 1, answering the five bytes "hello" on attempt 2. `handle_response`
returns `false` on the short datagram without touching `errno`, which still holds
`EAGAIN` from the timeout of attempt 1, so `main` takes its timeout branch and
sends a third request to the same address instead of leaving the retry loop. -/
theorem C5_short_reply_after_timeout_is_retried :
    (main exampleArgv 0 [shortAfterTimeoutAddr] 0).trace =
      [.socket 0 (.fd 3), .setsockopt 3 .ok, .connect 3 .ok,
       .send 0 3 (ascii "user@example.com") .ok, .recv 3 (.fail EAGAIN),
       .cerr "Timeout (attempt 1 of 3) on one address\n",
       .send 0 3 (ascii "user@example.com") .ok, .recv 3 (.datagram (ascii "hello")),
       .cerr "Received packet too short (5 bytes, need >= 32)\n",
       .cerr "Timeout (attempt 2 of 3) on one address\n",
       .send 0 3 (ascii "user@example.com") .ok, .recv 3 (.fail EAGAIN),
       .cerr "Timeout (attempt 3 of 3) on one address\n",
       .close 3, .freeaddrinfo,
       .cerr "No valid response after trying all addresses and retries.\n"]
    ∧ sendsTo 0 (main exampleArgv 0 [shortAfterTimeoutAddr] 0).trace = 3 := by
  decide

/-! ## C6, C7, C10: bounds, short-circuit and handle discipline of every run -/

/-- C6: in every run, whatever the resolver returned and whatever the calls
answered, `send` is called at most `max_retries = 3` times on any one address,
hence at most `3 * N` times for `N` resolved addresses. -/
theorem C6_sends_per_address_bounded (argv : List (List Byte)) (ret : Int)
    (res : List AddrInfo) (errno : Nat) :
    max_retries = 3
    ∧ (∀ rp, sendsTo rp (main argv ret res errno).trace ≤ max_retries)
    ∧ (main argv ret res errno).trace.countP isSend ≤ 3 * res.length := by
  obtain ⟨-, h2, h3, -, -⟩ := main_counts argv ret res errno
  exact ⟨rfl, h2, h3⟩

/-- C7: when a `recv` of the run delivers a datagram that passes the digest check
(a Success), no `send` and no `socket` call follows it: the rest of the run is
the printing of the message, `close` and `freeaddrinfo`, and `main` returns 0.
The `socket` calls of the whole run were made on the positions `0, 1, .., m-1` of
the resolver's list, in that order, once each. -/
theorem C7_success_short_circuits (argv : List (List Byte)) (ret : Int)
    (res : List AddrInfo) (errno : Nat) (pre post : List Event) (sockfd : Nat)
    (d : List Byte)
    (h : (main argv ret res errno).trace = pre ++ .recv sockfd (.datagram d) :: post)
    (hd : Verified (received d)) :
    (∀ x ∈ post, isSend x = false ∧ isSocket x = false)
    ∧ post = handling d ++ [.close sockfd, .freeaddrinfo]
    ∧ (main argv ret res errno).status = 0
    ∧ ∃ m, m ≤ res.length ∧ socketCalls (main argv ret res errno).trace = List.range m := by
  obtain ⟨hst, hpost⟩ := main_after_reply argv ret res errno pre post sockfd d h hd.1
  refine ⟨?_, hpost, hst, (main_counts argv ret res errno).1⟩
  intro x hx
  rw [hpost] at hx
  rcases List.mem_append.1 hx with hx | hx
  · have hl := handling_local d x hx
    exact ⟨isLocal_not_send hl, isLocal_not_socket hl⟩
  · simp only [List.mem_cons, List.not_mem_nil, or_false] at hx
    rcases hx with rfl | rfl <;> exact ⟨rfl, rfl⟩

/-- Witness of C7: three addresses, the second answers on its attempt 2. -/
theorem C7_witness_second_address :
    (main exampleArgv 0 [silentAddr, helloAddr 2, silentAddr] 0).trace
        = helloPre ++ .recv 3 (.datagram helloReply) :: helloPost
    ∧ Verified (received helloReply)
    ∧ (∀ x ∈ helloPost, isSend x = false ∧ isSocket x = false)
    ∧ helloPost = handling helloReply ++ [.close 3, .freeaddrinfo]
    ∧ (main exampleArgv 0 [silentAddr, helloAddr 2, silentAddr] 0).status = 0
    ∧ ∃ m, m ≤ [silentAddr, helloAddr 2, silentAddr].length
        ∧ socketCalls (main exampleArgv 0 [silentAddr, helloAddr 2, silentAddr] 0).trace
            = List.range m :=
  ⟨by decide, by decide,
   C7_success_short_circuits exampleArgv 0 [silentAddr, helloAddr 2, silentAddr] 0
     helloPre helloPost 3 helloReply (by decide) (by decide)⟩

/-- C10: in every run the socket handles are used one at a time: `socket` creates
a handle only while none is open, every `close` releases the handle that is
open, and no handle is open at the end of the run; the run makes exactly as many
`close` calls as it created handles. -/
theorem C10_handles_closed_once (argv : List (List Byte)) (ret : Int)
    (res : List AddrInfo) (errno : Nat) :
    handleAfter none (main argv ret res errno).trace = some none
    ∧ handlesOpened (main argv ret res errno).trace
        = handlesClosed (main argv ret res errno).trace := by
  obtain ⟨-, -, -, h4, h5⟩ := main_counts argv ret res errno
  exact ⟨h4, h5⟩

/-! ## C8, C9: timeouts followed by a verified reply, and timeouts only -/

/-- C8 (as stated, refuted): one address answers `SHA256 P ++ P` on attempt 1
for the 4065-byte payload `P = longPayload`. `main` returns 0, but what it
writes with `cout.write` is not `P`: only 4096 bytes of the datagram are received. -/
theorem C8_counterexample_long_payload :
    (main exampleArgv 0 [longAddr] 0).status = 0
    ∧ coutWrites (main exampleArgv 0 [longAddr] 0).trace ≠ [longPayload] := by
  have hl : longPayload.length = 4065 := List.length_replicate _ _
  have hd : 32 ≤ (received (SHA256 longPayload ++ longPayload)).length := by
    simp only [received, List.length_take, List.length_append, SHA256_length, hl, BUF_SIZE]
    decide
  obtain ⟨h1, h2, -⟩ := run_reply_after_silent exampleArgv rfl [] longAddr [] 0 3 1
    (SHA256 longPayload ++ longPayload) (fun v hv => absurd hv (List.not_mem_nil v))
    ⟨rfl, rfl, rfl⟩ (Nat.le_refl 1) (by decide) (fun a h1 h2 => by omega) rfl rfl hd
  refine ⟨h1, fun h => ?_⟩
  have hmem : longPayload ∈ coutWrites (handling (SHA256 longPayload ++ longPayload)) := by
    rw [← h2]
    show longPayload ∈ coutWrites (main exampleArgv 0 [longAddr] 0).trace
    rw [h]
    exact List.mem_singleton.2 rfl
  have hle := coutWrites_handling_length _ _ hmem
  rw [hl] at hle
  exact absurd hle (by decide)

/-- C8 (amended): the addresses `pre` open and always time out; the next address
`w` opens, times out on its attempts before `j` (`1 ≤ j ≤ 3`) and on attempt `j`
answers `SHA256 P ++ P` for a payload `P` of at most 4064 bytes; `post` are the
remaining addresses. Then `main` returns 0, the one block written with
`cout.write` is `P`, every address of `pre` got exactly 3 requests, `w` got
exactly `j`, the addresses of `post` got none, and `socket` was called on the
addresses up to `w`, in order. -/
theorem C8_reply_after_timeouts (argv : List (List Byte)) (hargc : argv.length = 4)
    (pre : List AddrInfo) (w : AddrInfo) (post : List AddrInfo) (errno sockfd j : Nat)
    (P : List Byte) (hpre : ∀ v ∈ pre, Silent v) (ho : Opens w sockfd)
    (hj1 : 1 ≤ j) (hj3 : j ≤ 3)
    (hto : ∀ a, 1 ≤ a → a < j → TimesOut w a)
    (hs : w.send j = .ok) (hr : w.recv j = .datagram (SHA256 P ++ P))
    (hP : P.length ≤ BUF_SIZE - 32) :
    (main argv 0 (pre ++ w :: post) errno).status = 0
    ∧ coutWrites (main argv 0 (pre ++ w :: post) errno).trace = [P]
    ∧ (∀ rp, rp < pre.length → sendsTo rp (main argv 0 (pre ++ w :: post) errno).trace = 3)
    ∧ sendsTo pre.length (main argv 0 (pre ++ w :: post) errno).trace = j
    ∧ (∀ rp, pre.length < rp → sendsTo rp (main argv 0 (pre ++ w :: post) errno).trace = 0)
    ∧ socketCalls (main argv 0 (pre ++ w :: post) errno).trace
        = List.range (pre.length + 1) := by
  have hl := SHA256_length P
  have hfit : (SHA256 P ++ P).length ≤ BUF_SIZE := by
    simp only [List.length_append, hl, BUF_SIZE] at hP ⊢
    omega
  have hrec : received (SHA256 P ++ P) = SHA256 P ++ P := received_of_le hfit
  have hv : Verified (received (SHA256 P ++ P)) := by
    rw [hrec]; exact verified_digest_append P
  obtain ⟨h1, h2, h3, h4, h5, h6⟩ := run_reply_after_silent argv hargc pre w post errno
    sockfd j (SHA256 P ++ P) hpre ho hj1 hj3 hto hs hr hv.1
  refine ⟨h1, ?_, h3, h4, h5, h6⟩
  rw [h2, handling_verified _ hv, hrec, List.drop_left' hl]
  rfl

/-- Witness of C8 (amended), the scenario of the specification: one address,
request "user@example.com", reply `SHA256 "hello" ++ "hello"` on attempt 2. -/
theorem C8_witness_hello_second_attempt :
    (main exampleArgv 0 [helloAddr 2] 0).status = 0
    ∧ coutWrites (main exampleArgv 0 [helloAddr 2] 0).trace = [ascii "hello"]
    ∧ (∀ rp, rp < 0 → sendsTo rp (main exampleArgv 0 [helloAddr 2] 0).trace = 3)
    ∧ sendsTo 0 (main exampleArgv 0 [helloAddr 2] 0).trace = 2
    ∧ (∀ rp, 0 < rp → sendsTo rp (main exampleArgv 0 [helloAddr 2] 0).trace = 0)
    ∧ socketCalls (main exampleArgv 0 [helloAddr 2] 0).trace = List.range 1 :=
  C8_reply_after_timeouts exampleArgv rfl [] (helloAddr 2) [] 0 3 2 (ascii "hello")
    (fun v hv => absurd hv (List.not_mem_nil v)) ⟨rfl, rfl, rfl⟩ (by decide) (by decide)
    (fun a h1 h2 => by
      have ha : a = 1 := by omega
      subst ha
      exact ⟨rfl, rfl⟩)
    rfl rfl (by decide)

/-- C9: when every resolved address opens and every attempt on it times out,
`main` calls `socket` on all `N` addresses in resolver order, sends exactly 3
requests to each of them, writes nothing to standard output, and returns 1. -/
theorem C9_all_silent_exhausts (argv : List (List Byte)) (hargc : argv.length = 4)
    (res : List AddrInfo) (errno : Nat) (hs : ∀ w ∈ res, Silent w) :
    (main argv 0 res errno).status = 1
    ∧ socketCalls (main argv 0 res errno).trace = List.range res.length
    ∧ (∀ rp, rp < res.length → sendsTo rp (main argv 0 res errno).trace = 3)
    ∧ (∀ rp, res.length ≤ rp → sendsTo rp (main argv 0 res errno).trace = 0)
    ∧ (∀ x ∈ (main argv 0 res errno).trace, isStdout x = false)
    ∧ coutWrites (main argv 0 res errno).trace = [] := by
  obtain ⟨p1, p2, p3, p4, p5, p6⟩ := addrLoop_silent (argv.getD 3 []) 0 res errno hs
  rw [main_of_args argv res errno hargc, p1]
  simp only [Bool.false_eq_true, if_false]
  refine ⟨trivial, ?_, ?_, ?_, ?_, ?_⟩
  · rw [socketCalls_append, p6, List.range_eq_range']
    simp [socketCalls]
  · intro rp hrp
    rw [sendsTo_append, p4 rp (by omega) (by omega)]
    rfl
  · intro rp hrp
    rw [sendsTo_append, p5 rp (Or.inr (by omega))]
    rfl
  · intro x hx
    rcases List.mem_append.1 hx with hx | hx
    · exact p3 x hx
    · simp only [List.mem_cons, List.not_mem_nil, or_false] at hx
      rcases hx with rfl | rfl <;> rfl
  · rw [coutWrites_append, p2]
    rfl

/-- Witness of C9: two silent addresses. -/
theorem C9_witness_two_silent :
    (main exampleArgv 0 [silentAddr, silentAddr] 0).status = 1
    ∧ socketCalls (main exampleArgv 0 [silentAddr, silentAddr] 0).trace = List.range 2
    ∧ (∀ rp, rp < 2 → sendsTo rp (main exampleArgv 0 [silentAddr, silentAddr] 0).trace = 3)
    ∧ (∀ rp, 2 ≤ rp → sendsTo rp (main exampleArgv 0 [silentAddr, silentAddr] 0).trace = 0)
    ∧ (∀ x ∈ (main exampleArgv 0 [silentAddr, silentAddr] 0).trace, isStdout x = false)
    ∧ coutWrites (main exampleArgv 0 [silentAddr, silentAddr] 0).trace = [] :=
  C9_all_silent_exhausts exampleArgv rfl [silentAddr, silentAddr] 0 (by
    intro w hw
    simp only [List.mem_cons, List.not_mem_nil, or_false, or_self] at hw
    subst hw
    exact ⟨⟨3, rfl, rfl, rfl⟩, fun a _ _ => ⟨rfl, rfl⟩⟩)

end UdpClient
